import Mathlib

/-!
Face tracker of the snap-filter plugin

Shallow embedding of `src/face-tracker.cpp` (class `FaceTracker`) together with
the properties of its detect / track / smooth pipeline.

Modelling conventions

* `float` and `double` values are rationals (`ℚ`) and `+`, `-`, `*`, `/` on them are
  exact; infinities and NaN are outside the model.  `0.8f`, `0.85f`, `0.5f`, `0.3f`
  are `4/5`, `17/20`, `1/2`, `3/10`.  The one place where the code chooses between
  candidates by comparing floating-point values, the distance `dist` of `track_face`,
  keeps its rounding: `dist` is what the external `sqrt` returns.
* `int` values are mathematical integers (`Int`); signed overflow and
  out-of-range float-to-int conversion are undefined behaviour in C++ and are
  outside the model.  `int / int` is truncating division (`Int.tdiv`) and
  `static_cast<int>` of a float truncates toward zero.
* The OpenCV primitives (colour conversion, histogram equalisation, sub-image
  extraction, the two cascade classifiers), `std::atan2` and `std::sqrt` are
  external: they are fields of the structure `OpenCV`, and every theorem quantifies
  over them.
* The mutex is not modelled: every function is one atomic step on the state.
-/

namespace SnapFilter

/-! ## Data model -/

/-- The OpenCV rectangle `cv::Rect` (integer pixel coordinates). -/
structure Rect where
  x : Int
  y : Int
  width : Int
  height : Int
deriving DecidableEq, Repr

/-- The method `cv::Rect::area()`: `width * height`. -/
def Rect.area (r : Rect) : Int := r.width * r.height

/-- The OpenCV size `cv::Size`; `Size()` is `⟨0, 0⟩` and means "no bound". -/
structure Size where
  width : Int
  height : Int
deriving DecidableEq, Repr

/-- The OpenCV point `cv::Point2f`. -/
structure Point2f where
  x : ℚ
  y : ℚ
deriving DecidableEq, Repr

/-- The struct `FaceData` of `face-tracker.h`. -/
structure FaceData where
  center_x : ℚ
  center_y : ℚ
  width : ℚ
  height : ℚ
  rotation : ℚ
  confidence : ℚ
  landmarks : List Point2f
deriving DecidableEq, Repr

/-- The literal `{0.5f, 0.5f, 0.0f, 0.0f, 0.0f, 0.0f, {}}` that the source writes at
every place where no face is reported. -/
def FaceData.no_face : FaceData :=
  { center_x := 1/2, center_y := 1/2, width := 0, height := 0, rotation := 0,
    confidence := 0, landmarks := [] }

/-- An image `cv::Mat`: its dimensions, its channel count and its pixel buffer,
which only the external primitives look into. -/
structure Mat where
  rows : Nat
  cols : Nat
  channels : Nat
  data : List Nat
deriving DecidableEq, Repr

/-- The method `cv::Mat::empty()`: no pixel at all. -/
def Mat.empty (m : Mat) : Bool := m.rows == 0 || m.cols == 0

/-- The two colour conversions that `process_mat` asks for. -/
inductive ColorConversion where
  | COLOR_BGR2GRAY
  | COLOR_BGRA2GRAY
deriving DecidableEq, Repr

/-- The external primitives the tracker calls.  `face_cascade` and `eye_cascade`
stand for `detectMultiScale` of the two members of that name, applied to an image
with a minimum and a maximum object size; `eye_cascade` is absent when the eye
cascade file was not loaded (`eye_cascade.empty()`).  `sqrt` is `std::sqrt` as line 276
of `track_face` uses it: the value that ends up in `float dist`, that is the square root
as the library computes it, rounded to single precision.  `indeterminate` is the value
found in the `rotation` field of the local `FaceData result;` of `track_face`,
which the source declares without an initialiser. -/
structure OpenCV where
  cvtColorData : ColorConversion → Mat → List Nat
  equalizeHistData : Mat → List Nat
  roiData : Mat → Rect → List Nat
  face_cascade : Mat → Size → Size → List Rect
  eye_cascade : Option (Mat → Size → Size → List Rect)
  atan2 : ℚ → ℚ → ℚ
  sqrt : ℚ → ℚ
  indeterminate : Mat → ℚ

/-- The call `cv::cvtColor(src, dst, code)` to grayscale: same dimensions, one channel. -/
def OpenCV.cvtColor (cv : OpenCV) (code : ColorConversion) (src : Mat) : Mat :=
  { src with channels := 1, data := cv.cvtColorData code src }

/-- The call `cv::equalizeHist(src, dst)`: same dimensions and channels. -/
def OpenCV.equalizeHist (cv : OpenCV) (src : Mat) : Mat :=
  { src with data := cv.equalizeHistData src }

/-- The sub-image `m(r)` of `cv::Mat::operator()(const Rect&)`. -/
def OpenCV.roi (cv : OpenCV) (m : Mat) (r : Rect) : Mat :=
  { rows := r.height.toNat, cols := r.width.toNat, channels := m.channels,
    data := cv.roiData m r }

/-- The conversion `static_cast<int>(q)` of a floating-point value: truncation toward zero. -/
def static_cast_int (q : ℚ) : Int := if 0 ≤ q then ⌊q⌋ else ⌈q⌉

/-- The constant `std::numeric_limits<float>::max()`, that is `(2 - 2^(-23)) * 2^127`. -/
def FLT_MAX : ℚ := 340282346638528859811704183484516925440

/-- The mutable members of `class FaceTracker` (the cascades are in `OpenCV`). -/
structure FaceTracker where
  initialized : Bool
  tracking_mode : Bool
  detection_confidence : ℚ
  previous_face : FaceData
  has_previous : Bool
  smooth_factor : ℚ
deriving DecidableEq, Repr

/-- The constructor `FaceTracker::FaceTracker()`. -/
def FaceTracker.new : FaceTracker :=
  { initialized := false, tracking_mode := true, detection_confidence := 1/2,
    previous_face := FaceData.no_face, has_previous := false, smooth_factor := 3/10 }

/-! ## Landmarks and rotation -/

/-- The method `FaceTracker::detect_landmarks`: centres of the eye candidates, in
emission order and in coordinates local to `face_roi`; empty without eye cascade. -/
def detect_landmarks (cv : OpenCV) (face_roi : Mat) : List Point2f :=
  match cv.eye_cascade with
  | Option.none => []
  | some detectMultiScale =>
    (detectMultiScale face_roi ⟨20, 20⟩ ⟨0, 0⟩).map fun eye =>
      { x := (eye.x : ℚ) + (eye.width : ℚ) / 2, y := (eye.y : ℚ) + (eye.height : ℚ) / 2 }

/-- The method `FaceTracker::calculate_rotation`. -/
def calculate_rotation (cv : OpenCV) (landmarks : List Point2f) : ℚ :=
  match landmarks with
  | left_eye :: right_eye :: _ =>
    let dx := right_eye.x - left_eye.x
    let dy := right_eye.y - left_eye.y
    cv.atan2 dy dx
  | _ => 0

/-! ## Full detection -/

/-- The loop of `detect_faces` over the candidates, lines 193-198: `main_face` starts
as `faces[0]` and is replaced by every candidate of strictly larger area. -/
def largest_face (faces : List Rect) (first : Rect) : Rect :=
  faces.foldl (fun main_face face => if face.area > main_face.area then face else main_face) first

/-- The landmarks both `detect_faces` (lines 211-220) and `track_face` (lines 293-303)
store: `detect_landmarks` on the sub-image `gray(face)`, each point shifted by the
origin of `face` and divided by the image dimensions. -/
def landmarks_of (cv : OpenCV) (gray : Mat) (face : Rect) (img_w img_h : ℚ) : List Point2f :=
  (detect_landmarks cv (cv.roi gray face)).map fun lm =>
    { x := (lm.x + (face.x : ℚ)) / img_w, y := (lm.y + (face.y : ℚ)) / img_h }

/-- The method `FaceTracker::detect_faces`. -/
def detect_faces (cv : OpenCV) (gray : Mat) : FaceData :=
  let faces := cv.face_cascade gray ⟨80, 80⟩ ⟨0, 0⟩
  match faces with
  | [] => FaceData.no_face
  | first :: _ =>
    let main_face := largest_face faces first
    let img_width : ℚ := (gray.cols : ℚ)
    let img_height : ℚ := (gray.rows : ℚ)
    let landmarks := landmarks_of cv gray main_face img_width img_height
    { center_x := ((main_face.x : ℚ) + (main_face.width : ℚ) / 2) / img_width
      center_y := ((main_face.y : ℚ) + (main_face.height : ℚ) / 2) / img_height
      width := (main_face.width : ℚ) / img_width
      height := (main_face.height : ℚ) / img_height
      rotation := if landmarks.length ≥ 2 then calculate_rotation cv landmarks else 0
      confidence := 4/5
      landmarks := landmarks }

/-! ## Region tracking -/

/-- The search rectangle of `track_face`, lines 233-246, together with the previous
box size `(prev_w, prev_h)` that bounds the candidate size. -/
def search_region (gray : Mat) (previous : FaceData) : Rect × Size :=
  let img_w : Int := (gray.cols : Int)
  let img_h : Int := (gray.rows : Int)
  let prev_x := static_cast_int (previous.center_x * (img_w : ℚ) - previous.width * (img_w : ℚ) / 2)
  let prev_y := static_cast_int (previous.center_y * (img_h : ℚ) - previous.height * (img_h : ℚ) / 2)
  let prev_w := static_cast_int (previous.width * (img_w : ℚ))
  let prev_h := static_cast_int (previous.height * (img_h : ℚ))
  let search_margin := static_cast_int ((prev_w : ℚ) * (1/2))
  let search_x := max 0 (prev_x - search_margin)
  let search_y := max 0 (prev_y - search_margin)
  let search_w := min (img_w - search_x) (prev_w + 2 * search_margin)
  let search_h := min (img_h - search_y) (prev_h + 2 * search_margin)
  (⟨search_x, search_y, search_w, search_h⟩, ⟨prev_w, prev_h⟩)

/-- The candidates `track_face` obtains for its search rectangle, lines 252-258. -/
def track_candidates (cv : OpenCV) (gray : Mat) (previous : FaceData) : List Rect :=
  let search := (search_region gray previous).1
  let prev := (search_region gray previous).2
  cv.face_cascade (cv.roi gray search)
    ⟨Int.tdiv prev.width 2, Int.tdiv prev.height 2⟩ ⟨prev.width * 2, prev.height * 2⟩

/-- The argument of `std::sqrt` in `track_face`, lines 270-277:
`pow(face_center_x - prev_center_x, 2) + pow(face_center_y - prev_center_y, 2)`. -/
def dist_sq (gray : Mat) (previous : FaceData) (search : Rect) (face : Rect) : ℚ :=
  let face_center_x : ℚ := (search.x : ℚ) + (face.x : ℚ) + (face.width : ℚ) / 2
  let face_center_y : ℚ := (search.y : ℚ) + (face.y : ℚ) + (face.height : ℚ) / 2
  let prev_center_x : ℚ := previous.center_x * (gray.cols : ℚ)
  let prev_center_y : ℚ := previous.center_y * (gray.rows : ℚ)
  (face_center_x - prev_center_x) ^ 2 + (face_center_y - prev_center_y) ^ 2

/-- The value `dist` of `track_face`, line 276: what `std::sqrt` returns for the sum of
the two squares, stored in a `float`. -/
def dist (cv : OpenCV) (gray : Mat) (previous : FaceData) (search : Rect) (face : Rect) : ℚ :=
  cv.sqrt (dist_sq gray previous search face)

/-- The loop of `track_face` over the candidates, lines 266-283: `best_face` starts as
`faces[0]` and `best_distance` as `FLT_MAX`; a candidate whose `dist` is strictly below
`best_distance` replaces both. -/
def closest_face (dist : Rect → ℚ) (faces : List Rect) (first : Rect) : Rect × ℚ :=
  faces.foldl (fun best face => if dist face < best.2 then (face, dist face) else best)
    (first, FLT_MAX)

/-- The method `FaceTracker::track_face`. -/
def track_face (cv : OpenCV) (gray : Mat) (previous : FaceData) : FaceData :=
  let img_w : Int := (gray.cols : Int)
  let img_h : Int := (gray.rows : Int)
  let search := (search_region gray previous).1
  if search.width ≤ 0 ∨ search.height ≤ 0 then
    detect_faces cv gray
  else
    let faces := track_candidates cv gray previous
    match faces with
    | [] => detect_faces cv gray
    | first :: _ =>
      let best_face := (closest_face (dist cv gray previous search) faces first).1
      let landmarks := landmarks_of cv gray
        ⟨search.x + best_face.x, search.y + best_face.y, best_face.width, best_face.height⟩
        (img_w : ℚ) (img_h : ℚ)
      { center_x := ((search.x : ℚ) + (best_face.x : ℚ) + (best_face.width : ℚ) / 2) / (img_w : ℚ)
        center_y := ((search.y : ℚ) + (best_face.y : ℚ) + (best_face.height : ℚ) / 2) / (img_h : ℚ)
        width := ((Int.tdiv best_face.width img_w : Int) : ℚ)
        height := ((Int.tdiv best_face.height img_h : Int) : ℚ)
        rotation := if landmarks.length ≥ 2 then calculate_rotation cv landmarks
                    else cv.indeterminate gray
        confidence := 17/20
        landmarks := landmarks }

/-! ## The per-frame step -/

/-- The two acquisition engines of `process_mat`. -/
inductive Engine where
  | RegionTracking
  | FullDetection
deriving DecidableEq, Repr

/-- The test of `process_mat`, line 151, that chooses the engine. -/
def FaceTracker.engine (t : FaceTracker) : Engine :=
  if t.has_previous && t.tracking_mode then Engine.RegionTracking else Engine.FullDetection

/-- The call each branch of lines 151-157 makes. -/
def Engine.run (cv : OpenCV) (gray : Mat) (previous : FaceData) : Engine → FaceData
  | Engine.RegionTracking => track_face cv gray previous
  | Engine.FullDetection => detect_faces cv gray

/-- The image handed to the engines, lines 135-147: grayscale, then equalised. -/
def preprocess (cv : OpenCV) (frame : Mat) : Mat :=
  let gray :=
    if frame.channels = 3 then cv.cvtColor ColorConversion.COLOR_BGR2GRAY frame
    else if frame.channels = 4 then cv.cvtColor ColorConversion.COLOR_BGRA2GRAY frame
    else frame
  cv.equalizeHist gray

/-- The raw estimate of a frame: `current_face` after lines 149-157 of `process_mat`. -/
def raw_estimate (cv : OpenCV) (t : FaceTracker) (frame : Mat) : FaceData :=
  t.engine.run cv (preprocess cv frame) t.previous_face

/-- The smoothing block of `process_mat`, lines 160-171. -/
def smooth (t : FaceTracker) (current_face : FaceData) : FaceData :=
  if t.has_previous then
    { current_face with
      center_x := t.previous_face.center_x * (1 - t.smooth_factor)
                    + current_face.center_x * t.smooth_factor
      center_y := t.previous_face.center_y * (1 - t.smooth_factor)
                    + current_face.center_y * t.smooth_factor
      width := t.previous_face.width * (1 - t.smooth_factor)
                 + current_face.width * t.smooth_factor
      height := t.previous_face.height * (1 - t.smooth_factor)
                  + current_face.height * t.smooth_factor
      rotation := t.previous_face.rotation * (1 - t.smooth_factor)
                    + current_face.rotation * t.smooth_factor }
  else current_face

/-- The method `FaceTracker::process_mat`: the returned estimate and the tracker after
the call. -/
def process_mat (cv : OpenCV) (t : FaceTracker) (frame : Mat) : FaceData × FaceTracker :=
  if !t.initialized || frame.empty then
    (FaceData.no_face, t)
  else
    let current_face := smooth t (raw_estimate cv t frame)
    (current_face,
      { t with previous_face := current_face
               has_previous := decide (current_face.confidence > t.detection_confidence) })

/-- Feeding a sequence of frames to `process_mat`, one call per frame: the estimates
returned, in order, and the tracker after the last call. -/
def process_all (cv : OpenCV) : FaceTracker → List Mat → List FaceData × FaceTracker
  | t, [] => ([], t)
  | t, frame :: rest =>
    let r := process_mat cv t frame
    let rs := process_all cv r.2 rest
    (r.1 :: rs.1, rs.2)

/-! ## Predicates used in the statements -/

/-- The four geometric fields of an estimate are normalised: each lies in `[0, 1]`. -/
def FaceData.in_range (f : FaceData) : Prop :=
  (0 ≤ f.center_x ∧ f.center_x ≤ 1) ∧ (0 ≤ f.center_y ∧ f.center_y ≤ 1) ∧
  (0 ≤ f.width ∧ f.width ≤ 1) ∧ (0 ≤ f.height ∧ f.height ≤ 1)

/-- The rectangle lies inside the image: non-negative origin and extent, and its far
corner does not pass the image's. -/
def Rect.inside (r : Rect) (img : Mat) : Prop :=
  0 ≤ r.x ∧ 0 ≤ r.y ∧ 0 ≤ r.width ∧ 0 ≤ r.height ∧
  r.x + r.width ≤ (img.cols : Int) ∧ r.y + r.height ≤ (img.rows : Int)

/-- The face detector only reports rectangles inside the image it was given. -/
def OpenCV.detector_inside (cv : OpenCV) : Prop :=
  ∀ (img : Mat) (min_size max_size : Size), ∀ r ∈ cv.face_cascade img min_size max_size,
    r.inside img

/-- No candidate is found for the frame: the full scan reports nothing, and if Region
Tracking runs first, its search rectangle is degenerate or holds nothing either. -/
def no_candidate (cv : OpenCV) (t : FaceTracker) (frame : Mat) : Prop :=
  cv.face_cascade (preprocess cv frame) ⟨80, 80⟩ ⟨0, 0⟩ = [] ∧
  (t.engine = Engine.RegionTracking →
    (search_region (preprocess cv frame) t.previous_face).1.width ≤ 0 ∨
    (search_region (preprocess cv frame) t.previous_face).1.height ≤ 0 ∨
    track_candidates cv (preprocess cv frame) t.previous_face = [])

/-! ## Sample inputs -/

/-- Floor of the base-2 logarithm of a natural number (0 for 0), by halving. -/
def nat_log2_aux : Nat → Nat → Nat
  | 0, _ => 0
  | fuel + 1, n => if n < 2 then 0 else nat_log2_aux fuel (n / 2) + 1

/-- Floor of the base-2 logarithm of a natural number (0 for 0). -/
def nat_log2 (n : Nat) : Nat := nat_log2_aux n n

/-- Floor of the base-2 logarithm of a positive rational. -/
def floor_log2 (x : ℚ) : Int :=
  if 1 ≤ x then (nat_log2 ⌊x⌋.toNat : Int)
  else -((nat_log2 (⌈1 / x⌉.toNat - 1) : Int) + 1)

/-- Integer square root by bisection between `lo` and `hi`, where `lo ^ 2 ≤ n < hi ^ 2`. -/
def isqrt_aux (n : Nat) : Nat → Nat → Nat → Nat
  | 0, lo, _ => lo
  | fuel + 1, lo, hi =>
    if hi ≤ lo + 1 then lo
    else if ((lo + hi) / 2) * ((lo + hi) / 2) ≤ n then isqrt_aux n fuel ((lo + hi) / 2) hi
    else isqrt_aux n fuel lo ((lo + hi) / 2)

/-- Integer square root: the largest `r` with `r ^ 2 ≤ n`. -/
def isqrt (n : Nat) : Nat := isqrt_aux n (nat_log2 n + 2) 0 (n + 1)

/-- A non-negative rational rounded to `p` significant bits, to nearest, ties to even
(exponent range unbounded). -/
def round_bits (p : Nat) (x : ℚ) : ℚ :=
  if x ≤ 0 then 0
  else
    let ulp : ℚ := 2 ^ (floor_log2 x - ((p : Int) - 1))
    let y := x / ulp
    let n : Int := ⌊y⌋
    if y - n < 1/2 then n * ulp
    else if 1/2 < y - n then (n + 1) * ulp
    else if n % 2 = 0 then n * ulp else (n + 1) * ulp

/-- The square root of a non-negative rational rounded to `p` significant bits, to
nearest, ties to even (exponent range unbounded). -/
def sqrt_bits (p : Nat) (x : ℚ) : ℚ :=
  if x ≤ 0 then 0
  else
    let ulp : ℚ := 2 ^ (floor_log2 x / 2 - ((p : Int) - 1))
    let y := x / ulp ^ 2
    let n : Nat := isqrt ⌊y⌋.toNat
    if y < ((n : ℚ) + 1/2) ^ 2 then n * ulp
    else if ((n : ℚ) + 1/2) ^ 2 < y then ((n : ℚ) + 1) * ulp
    else if n % 2 = 0 then n * ulp else ((n : ℚ) + 1) * ulp

/-- A stand-in for `std::sqrt` stored in a `float`, as IEEE 754 arithmetic computes it:
the square root correctly rounded to a `double` (53 bits), then rounded to a `float`
(24 bits).  For example `float_sqrt 2 = 11863283 / 2 ^ 23`. -/
def float_sqrt (x : ℚ) : ℚ := round_bits 24 (sqrt_bits 53 x)

/-- A stand-in for the OpenCV primitives: the face detector reports `full` on an image
100 pixels wide and `region` on any other image; there is no eye cascade. -/
def sample_cv (full region : List Rect) : OpenCV :=
  { cvtColorData := fun _ m => m.data
    equalizeHistData := fun m => m.data
    roiData := fun m _ => m.data
    face_cascade := fun img _ _ => if img.cols = 100 then full else region
    eye_cascade := Option.none
    atan2 := fun _ _ => 0
    sqrt := float_sqrt
    indeterminate := fun _ => 0 }

/-- A 100 x 100 single-channel frame. -/
def sample_frame : Mat := { rows := 100, cols := 100, channels := 1, data := [] }

/-- The tracker right after construction and a successful initialisation. -/
def fresh_tracker : FaceTracker := { FaceTracker.new with initialized := true }

/-- A tracker in the middle of a session: a face was accepted on the previous frame. -/
def warm_tracker : FaceTracker :=
  { initialized := true, tracking_mode := false, detection_confidence := 1/2,
    previous_face := { center_x := 1/5, center_y := 1/4, width := 1/10, height := 1/10,
                       rotation := 0, confidence := 4/5, landmarks := [] },
    has_previous := true, smooth_factor := 1/2 }

/-- A face detector that stays inside the image it is given: on an image of at least
80 x 80 pixels it reports the 80 x 80 squares of the top-left and the bottom-right corner,
on a smaller image nothing. -/
def inside_cv : OpenCV :=
  { cvtColorData := fun _ m => m.data
    equalizeHistData := fun m => m.data
    roiData := fun m _ => m.data
    face_cascade := fun img _ _ =>
      if 80 ≤ img.cols ∧ 80 ≤ img.rows then
        [⟨0, 0, 80, 80⟩, ⟨(img.cols : Int) - 80, (img.rows : Int) - 80, 80, 80⟩]
      else []
    eye_cascade := Option.none
    atan2 := fun _ _ => 0
    sqrt := float_sqrt
    indeterminate := fun _ => 0 }

/-- A previous estimate: a 30 x 30 box centred at (80, 25) of the sample frame. -/
def sample_previous : FaceData :=
  { center_x := 4/5, center_y := 1/4, width := 3/10, height := 3/10, rotation := 0,
    confidence := 4/5, landmarks := [] }

/-! ## Lifecycle and configuration of the tracker -/

/-- The method `FaceTracker::initialize`: the returned flag and the tracker after the
call.  `cascades_loaded` is what `load_cascades()` returns, which depends on the cascade
files found on disk. -/
def FaceTracker.initialize (t : FaceTracker) (cascades_loaded : Bool) : Bool × FaceTracker :=
  if t.initialized then (true, t)
  else if !cascades_loaded then (false, t)
  else (true, { t with initialized := true })

/-- The method `FaceTracker::shutdown`. -/
def FaceTracker.shutdown (t : FaceTracker) : FaceTracker :=
  { t with initialized := false }

/-- The method `FaceTracker::process_frame`: the returned estimate and the tracker after
the call.  `source` tells whether the pointer `source` is non-null. -/
def FaceTracker.process_frame (t : FaceTracker) (source : Bool) : FaceData × FaceTracker :=
  if !t.initialized || !source then
    (FaceData.no_face, t)
  else if t.has_previous && t.tracking_mode then
    (t.previous_face, t)
  else
    (FaceData.no_face, t)

/-- The method `FaceTracker::set_detection_confidence`:
`std::max(0.0f, std::min(1.0f, confidence))`. -/
def FaceTracker.set_detection_confidence (t : FaceTracker) (confidence : ℚ) : FaceTracker :=
  { t with detection_confidence := max 0 (min 1 confidence) }

/-- The method `FaceTracker::set_tracking_mode`. -/
def FaceTracker.set_tracking_mode (t : FaceTracker) (enabled : Bool) : FaceTracker :=
  { t with tracking_mode := enabled }

/-- One call of a public method of `FaceTracker`, with its arguments (`initialize_` is
the call of `FaceTracker::initialize`). -/
inductive Call where
  | initialize_ (cascades_loaded : Bool)
  | shutdown
  | set_detection_confidence (confidence : ℚ)
  | set_tracking_mode (enabled : Bool)
  | process_frame (source : Bool)
  | process_mat (frame : Mat)

/-- The call is a call of `process_mat`. -/
def Call.is_process_mat : Call → Bool
  | Call.process_mat _ => true
  | _ => false

/-- The tracker after one call. -/
def FaceTracker.call (cv : OpenCV) (t : FaceTracker) : Call → FaceTracker
  | Call.initialize_ cascades_loaded => ( FaceTracker.initialize t cascades_loaded).2
  | Call.shutdown => FaceTracker.shutdown t
  | Call.set_detection_confidence confidence => FaceTracker.set_detection_confidence t confidence
  | Call.set_tracking_mode enabled => FaceTracker.set_tracking_mode t enabled
  | Call.process_frame source => (FaceTracker.process_frame t source).2
  | Call.process_mat frame => (process_mat cv t frame).2

/-- The tracker after a sequence of calls, first call first. -/
def FaceTracker.calls (cv : OpenCV) (t : FaceTracker) (cs : List Call) : FaceTracker :=
  cs.foldl (FaceTracker.call cv) t

/-! ## The filter's published signal (`snap-filter.cpp`) -/

/-- The OBS vector `struct vec2`. -/
structure Vec2 where
  x : ℚ
  y : ℚ
deriving DecidableEq, Repr

/-- The members of `struct snapfilter_data` that face tracking reads or writes;
`face_tracker` is absent when the `unique_ptr` is null. -/
structure snapfilter_data where
  face_tracker : Option FaceTracker
  tracking_enabled : Bool
  face_detected : Bool
  face_center : Vec2
  face_size : Vec2
  face_rotation : ℚ
  face_confidence : ℚ
  smooth_factor : ℚ
deriving DecidableEq, Repr

/-- The function `update_face_tracking`.  `target` tells whether
`obs_filter_get_target(filter->context)` is non-null. -/
def update_face_tracking (filter : snapfilter_data) (target : Bool) : snapfilter_data :=
  match filter.face_tracker with
  | Option.none => filter
  | some face_tracker =>
    if !target then filter
    else
      let r := FaceTracker.process_frame face_tracker target
      let face_data := r.1
      let alpha := filter.smooth_factor
      { filter with
        face_tracker := some r.2
        face_center :=
          { x := filter.face_center.x * (1 - alpha) + face_data.center_x * alpha
            y := filter.face_center.y * (1 - alpha) + face_data.center_y * alpha }
        face_size :=
          { x := filter.face_size.x * (1 - alpha) + face_data.width * alpha
            y := filter.face_size.y * (1 - alpha) + face_data.height * alpha }
        face_rotation := filter.face_rotation * (1 - alpha) + face_data.rotation * alpha
        face_confidence := face_data.confidence
        face_detected := decide (face_data.confidence > 1/2) }

/-- The function `snapfilter_create`, as far as face tracking goes: the tracker is
constructed and initialised, the published signal is the default one, and
`tracking_enabled` and `smooth_factor` are what `snapfilter_update` reads from the
settings. -/
def snapfilter_create (cascades_loaded : Bool) (tracking_enabled : Bool) (smooth_factor : ℚ) :
    snapfilter_data :=
  { face_tracker := some ( FaceTracker.initialize FaceTracker.new cascades_loaded).2
    tracking_enabled := tracking_enabled
    face_detected := false
    face_center := ⟨1/2, 1/2⟩
    face_size := ⟨0, 0⟩
    face_rotation := 0
    face_confidence := 0
    smooth_factor := smooth_factor }

/-- What happens to the filter between creation and destruction: a period of the
tracking thread (lines 51-56 of `snapfilter_create`), or `snapfilter_update` with new
settings. -/
inductive FilterEvent where
  | tick (target : Bool)
  | update (tracking_enabled : Bool) (smooth_factor : ℚ)

/-- The filter after one event. -/
def snapfilter_data.event (filter : snapfilter_data) : FilterEvent → snapfilter_data
  | FilterEvent.tick target =>
    if filter.tracking_enabled && filter.face_tracker.isSome then
      update_face_tracking filter target
    else filter
  | FilterEvent.update tracking_enabled smooth_factor =>
    { filter with tracking_enabled := tracking_enabled, smooth_factor := smooth_factor }

/-- The filter after a sequence of events, first event first. -/
def snapfilter_data.events (filter : snapfilter_data) (es : List FilterEvent) : snapfilter_data :=
  es.foldl snapfilter_data.event filter

/-! ## Shader validation (`shader-utils.cpp`) -/

/-- The call `s.find(pat)` of `std::string`, scanning from position `pos`: the position
of the first occurrence of `pat`, or nothing (`npos`). -/
def string_find (pat : List Char) : List Char → Nat → Option Nat
  | [], pos => if pat.isPrefixOf [] then some pos else Option.none
  | c :: rest, pos =>
    if pat.isPrefixOf (c :: rest) then some pos else string_find pat rest (pos + 1)

/-- The brace loop of `validate_shader`, lines 64-72, started with `brace_count`: the
count after the last character, or nothing when the count went below zero and the
function returned early. -/
def brace_scan : List Char → Int → Option Int
  | [], brace_count => some brace_count
  | c :: rest, brace_count =>
    let count1 := if c = Char.ofNat 123 then brace_count + 1 else brace_count
    let count2 := if c = Char.ofNat 125 then count1 - 1 else count1
    if count2 < 0 then Option.none else brace_scan rest count2

/-- The function `ShaderUtils::validate_shader`: the returned flag and `error_msg` after
the call. -/
def validate_shader (shader_code : List Char) (error_msg : String) : Bool × String :=
  if string_find "mainImage".toList shader_code 0 = Option.none ∧
      string_find "main".toList shader_code 0 = Option.none then
    (false, "Shader must contain mainImage() or main() function")
  else if string_find "return".toList shader_code 0 = Option.none then
    (false, "Shader must have a return statement")
  else
    match brace_scan shader_code 0 with
    | Option.none => (false, "Unbalanced braces in shader")
    | some brace_count =>
      if brace_count ≠ 0 then (false, "Unbalanced braces in shader")
      else (true, error_msg)

/-- Balanced braces, in the words of the specification: no prefix of the text has more
closing than opening braces, and the whole text has equally many of each. -/
def braces_balanced (text : List Char) : Prop :=
  (∀ p : List Char, p <+: text → p.count (Char.ofNat 125) ≤ p.count (Char.ofNat 123)) ∧
  text.count (Char.ofNat 123) = text.count (Char.ofNat 125)

/-! ## More sample inputs -/

/-- A stand-in for the OpenCV primitives with an eye cascade: one face candidate
`Rect(40, 20, 100, 60)` on every image and two eyes in it, with centres (15, 15) and
(25, 25) in the coordinates of the face region; `atan2` and the indeterminate value are
left open. -/
def eyes_cv (atan2 : ℚ → ℚ → ℚ) (junk : ℚ) : OpenCV :=
  { cvtColorData := fun _ m => m.data
    equalizeHistData := fun m => m.data
    roiData := fun m _ => m.data
    face_cascade := fun _ _ _ => [⟨40, 20, 100, 60⟩]
    eye_cascade := some (fun _ _ _ => [⟨10, 10, 10, 10⟩, ⟨20, 20, 10, 10⟩])
    atan2 := atan2
    sqrt := float_sqrt
    indeterminate := fun _ => junk }

/-- A 200 x 100 single-channel frame (200 columns, 100 rows). -/
def wide_frame : Mat := { rows := 100, cols := 200, channels := 1, data := [] }

/-- A filter whose tracker holds an accepted face, with the published values of the
specification's smoothing example. -/
def sample_filter : snapfilter_data :=
  { face_tracker := some
      { initialized := true, tracking_mode := true, detection_confidence := 1/2,
        previous_face := { center_x := 4/5, center_y := 1/4, width := 3/10, height := 3/10,
                           rotation := 0, confidence := 4/5, landmarks := [] },
        has_previous := true, smooth_factor := 3/10 }
    tracking_enabled := true
    face_detected := false
    face_center := ⟨1/5, 1/2⟩
    face_size := ⟨1/10, 1/10⟩
    face_rotation := 0
    face_confidence := 0
    smooth_factor := 1/2 }

/-- The condition every reachable tracker state satisfies: the threshold is in `[0, 1]`,
and a previous face that may be tracked has confidence 0.8 or 0.85. -/
def FaceTracker.consistent (t : FaceTracker) : Prop :=
  (0 ≤ t.detection_confidence ∧ t.detection_confidence ≤ 1) ∧
  (t.has_previous = true →
    t.previous_face.confidence = 4/5 ∨ t.previous_face.confidence = 17/20)

/-- The call does not bring the threshold below 0.85: it is not a
`set_detection_confidence` with an argument below 0.85. -/
def Call.keeps_threshold : Call → Prop
  | Call.set_detection_confidence confidence => 17/20 ≤ confidence
  | _ => True

/-- A stand-in for `std::atan2` on the coordinate axes: `0` on the positive x axis,
`355/226` on the positive y axis, `355/113` on the negative x axis (rational
approximations of `0`, `π/2`, `π`), and `0` elsewhere. -/
def approx_atan2 (y x : ℚ) : ℚ :=
  if y = 0 ∧ 0 < x then 0
  else if 0 < y ∧ x = 0 then 355/226
  else if y = 0 ∧ x < 0 then 355/113
  else 0

/-! ## Properties of `process_mat` -/

/-- Outside the short-circuit, `process_mat` returns the smoothed raw estimate and
stores it. -/
lemma process_mat_eq (cv : OpenCV) (t : FaceTracker) (frame : Mat)
    (hinit : t.initialized = true) (hframe : frame.empty = false) :
    process_mat cv t frame =
      (smooth t (raw_estimate cv t frame),
        { t with previous_face := smooth t (raw_estimate cv t frame)
                 has_previous := decide ((smooth t (raw_estimate cv t frame)).confidence
                                          > t.detection_confidence) }) := by
  simp [process_mat, hinit, hframe]

/-- Smoothing leaves the confidence alone. -/
lemma smooth_confidence (t : FaceTracker) (f : FaceData) :
    (smooth t f).confidence = f.confidence := by
  unfold smooth
  split <;> rfl

/-- Smoothing leaves the landmarks alone. -/
lemma smooth_landmarks (t : FaceTracker) (f : FaceData) :
    (smooth t f).landmarks = f.landmarks := by
  unfold smooth
  split <;> rfl

/-- Without a previous face the smoothing block is skipped. -/
lemma smooth_of_no_previous (t : FaceTracker) (f : FaceData) (h : t.has_previous = false) :
    smooth t f = f := by
  simp [smooth, h]

/-- With `has_previous` false the engine is Full Detection. -/
lemma engine_of_no_previous (t : FaceTracker) (h : t.has_previous = false) :
    t.engine = Engine.FullDetection := by
  simp [FaceTracker.engine, h]

/-- C1. Decision rule of `process_mat`: on an initialised tracker and a non-empty frame
the returned estimate is the smoothed raw estimate; the raw estimate comes from Region
Tracking (`track_face` against `previous_face`) exactly when `has_previous && tracking_mode`
holds at call time and from Full Detection (`detect_faces`) otherwise; so with
`tracking_mode` false it is Full Detection whatever `has_previous` is; and if the raw
estimate's confidence is at most `detection_confidence`, the next call on a non-empty
frame runs Full Detection. -/
theorem process_mat_decision_rule (cv : OpenCV) (t : FaceTracker) (frame : Mat)
    (hinit : t.initialized = true) (hframe : frame.empty = false) :
    (process_mat cv t frame).1 = smooth t (raw_estimate cv t frame) ∧
    (t.engine = Engine.RegionTracking ↔ (t.has_previous = true ∧ t.tracking_mode = true)) ∧
    (t.engine = Engine.FullDetection ↔ ¬ (t.has_previous = true ∧ t.tracking_mode = true)) ∧
    (t.engine = Engine.RegionTracking →
      raw_estimate cv t frame = track_face cv (preprocess cv frame) t.previous_face) ∧
    (t.engine = Engine.FullDetection →
      raw_estimate cv t frame = detect_faces cv (preprocess cv frame)) ∧
    (t.tracking_mode = false → t.engine = Engine.FullDetection) ∧
    ((raw_estimate cv t frame).confidence ≤ t.detection_confidence →
      (process_mat cv t frame).2.engine = Engine.FullDetection ∧
      ∀ next : Mat, next.empty = false →
        raw_estimate cv (process_mat cv t frame).2 next = detect_faces cv (preprocess cv next) ∧
        (process_mat cv (process_mat cv t frame).2 next).1
          = detect_faces cv (preprocess cv next)) := by
  refine ⟨?_, ?_, ?_, ?_, ?_, ?_, ?_⟩
  · rw [process_mat_eq cv t frame hinit hframe]
  · cases h1 : t.has_previous <;> cases h2 : t.tracking_mode <;> simp [FaceTracker.engine, h1, h2]
  · cases h1 : t.has_previous <;> cases h2 : t.tracking_mode <;> simp [FaceTracker.engine, h1, h2]
  · intro h
    simp [raw_estimate, h, Engine.run]
  · intro h
    simp [raw_estimate, h, Engine.run]
  · intro h
    simp [FaceTracker.engine, h]
  · intro hconf
    have hprev : (process_mat cv t frame).2.has_previous = false := by
      rw [process_mat_eq cv t frame hinit hframe]
      simp only [smooth_confidence]
      simpa using hconf
    have hini : (process_mat cv t frame).2.initialized = true := by
      rw [process_mat_eq cv t frame hinit hframe]
      exact hinit
    have heng := engine_of_no_previous _ hprev
    refine ⟨heng, fun next hnext => ?_⟩
    have hraw : raw_estimate cv (process_mat cv t frame).2 next
        = detect_faces cv (preprocess cv next) := by
      simp [raw_estimate, heng, Engine.run]
    refine ⟨hraw, ?_⟩
    rw [process_mat_eq cv _ next hini hnext]
    simp only
    rw [smooth_of_no_previous _ _ hprev, hraw]

/-- Witness for C1: a tracker that was following a face loses it (no candidate in the
search rectangle, none in the full frame); the call after that runs Full Detection. -/
theorem process_mat_decision_rule_witness :
    ({ warm_tracker with tracking_mode := true } : FaceTracker).initialized = true ∧
    sample_frame.empty = false ∧
    ({ warm_tracker with tracking_mode := true } : FaceTracker).engine = Engine.RegionTracking ∧
    (process_mat (sample_cv [] []) { warm_tracker with tracking_mode := true }
      sample_frame).2.engine = Engine.FullDetection :=
  ⟨rfl, rfl, by decide,
    ((process_mat_decision_rule (sample_cv [] []) { warm_tracker with tracking_mode := true }
      sample_frame rfl rfl).2.2.2.2.2.2 (by decide!)).1⟩

/-- C2, as stated, fails: on the first processed frame (`has_previous` false, previous
estimate the default) the returned width is the raw width `3/10`, not the blend
`0 * (1 - 3/10) + 3/10 * 3/10` with the default estimate. -/
theorem process_mat_smoothing_first_frame_counterexample :
    fresh_tracker.initialized = true ∧ sample_frame.empty = false ∧
    fresh_tracker.has_previous = false ∧
    (process_mat (sample_cv [⟨65, 10, 30, 30⟩] []) fresh_tracker sample_frame).1.width = 3/10 ∧
    (process_mat (sample_cv [⟨65, 10, 30, 30⟩] []) fresh_tracker sample_frame).1.width ≠
      fresh_tracker.previous_face.width * (1 - fresh_tracker.smooth_factor)
        + (raw_estimate (sample_cv [⟨65, 10, 30, 30⟩] []) fresh_tracker sample_frame).width
            * fresh_tracker.smooth_factor := by
  decide!

/-- C2, amended. Smoothing law of `process_mat`: on an initialised tracker and a
non-empty frame, if `has_previous` is true before the call then each of the returned
`center_x`, `center_y`, `width`, `height`, `rotation` equals
`previous * (1 - smooth_factor) + raw * smooth_factor`; if `has_previous` is false before
the call (as on the very first frame) the returned estimate is the raw estimate itself. -/
theorem process_mat_smoothing (cv : OpenCV) (t : FaceTracker) (frame : Mat)
    (hinit : t.initialized = true) (hframe : frame.empty = false) :
    (t.has_previous = true →
      (process_mat cv t frame).1.center_x =
        t.previous_face.center_x * (1 - t.smooth_factor)
          + (raw_estimate cv t frame).center_x * t.smooth_factor ∧
      (process_mat cv t frame).1.center_y =
        t.previous_face.center_y * (1 - t.smooth_factor)
          + (raw_estimate cv t frame).center_y * t.smooth_factor ∧
      (process_mat cv t frame).1.width =
        t.previous_face.width * (1 - t.smooth_factor)
          + (raw_estimate cv t frame).width * t.smooth_factor ∧
      (process_mat cv t frame).1.height =
        t.previous_face.height * (1 - t.smooth_factor)
          + (raw_estimate cv t frame).height * t.smooth_factor ∧
      (process_mat cv t frame).1.rotation =
        t.previous_face.rotation * (1 - t.smooth_factor)
          + (raw_estimate cv t frame).rotation * t.smooth_factor) ∧
    (t.has_previous = false → (process_mat cv t frame).1 = raw_estimate cv t frame) := by
  rw [process_mat_eq cv t frame hinit hframe]
  constructor
  · intro h
    simp [smooth, h]
  · intro h
    simp [smooth, h]

/-- Witness for C2 amended, the numbers of the specification: previous `center_x` 0.2 and
`width` 0.1, raw `center_x` 0.8 and `width` 0.3, `smooth_factor` 0.5 give `center_x` 0.5
and `width` 0.2. -/
theorem process_mat_smoothing_witness :
    warm_tracker.initialized = true ∧ sample_frame.empty = false ∧
    warm_tracker.has_previous = true ∧
    warm_tracker.previous_face.center_x = 1/5 ∧ warm_tracker.previous_face.width = 1/10 ∧
    warm_tracker.smooth_factor = 1/2 ∧
    (raw_estimate (sample_cv [⟨65, 10, 30, 30⟩] []) warm_tracker sample_frame).center_x = 4/5 ∧
    (raw_estimate (sample_cv [⟨65, 10, 30, 30⟩] []) warm_tracker sample_frame).width = 3/10 ∧
    (process_mat (sample_cv [⟨65, 10, 30, 30⟩] []) warm_tracker sample_frame).1.center_x = 1/2 ∧
    (process_mat (sample_cv [⟨65, 10, 30, 30⟩] []) warm_tracker sample_frame).1.width = 1/5 := by
  have h := (process_mat_smoothing (sample_cv [⟨65, 10, 30, 30⟩] []) warm_tracker sample_frame
    rfl rfl).1 rfl
  have hx : (raw_estimate (sample_cv [⟨65, 10, 30, 30⟩] []) warm_tracker sample_frame).center_x
      = 4/5 := by decide!
  have hw : (raw_estimate (sample_cv [⟨65, 10, 30, 30⟩] []) warm_tracker sample_frame).width
      = 3/10 := by decide!
  refine ⟨rfl, rfl, rfl, rfl, rfl, rfl, hx, hw, ?_, ?_⟩
  · rw [h.1, hx]
    norm_num [warm_tracker]
  · rw [h.2.2.1, hw]
    norm_num [warm_tracker]

/-- When no candidate is found the raw estimate is the default estimate. -/
lemma raw_estimate_of_no_candidate (cv : OpenCV) (t : FaceTracker) (frame : Mat)
    (h : no_candidate cv t frame) : raw_estimate cv t frame = FaceData.no_face := by
  obtain ⟨hfull, hregion⟩ := h
  have hdet : detect_faces cv (preprocess cv frame) = FaceData.no_face := by
    simp [detect_faces, hfull]
  cases heng : t.engine with
  | FullDetection => simp [raw_estimate, heng, Engine.run, hdet]
  | RegionTracking =>
    simp only [raw_estimate, heng, Engine.run]
    unfold track_face
    rcases hregion heng with hw | hh | hc
    · simp [hw, hdet]
    · simp [hh, hdet]
    · simp only [hc]
      split <;> exact hdet

/-- C3. State update of `process_mat`: on an initialised tracker and a non-empty frame,
after the call `previous_face` is the returned (smoothed) estimate and `has_previous` is
`raw.confidence > detection_confidence` for the raw estimate of this frame; so, the
threshold being non-negative as the setter keeps it, `has_previous` is false after a
frame in which no candidate was found; `tracking_mode`, `detection_confidence`,
`smooth_factor` and `initialized` are unchanged. -/
theorem process_mat_state_update (cv : OpenCV) (t : FaceTracker) (frame : Mat)
    (hinit : t.initialized = true) (hframe : frame.empty = false) :
    (process_mat cv t frame).2.previous_face = (process_mat cv t frame).1 ∧
    (process_mat cv t frame).2.has_previous
      = decide ((raw_estimate cv t frame).confidence > t.detection_confidence) ∧
    (0 ≤ t.detection_confidence → no_candidate cv t frame →
      (process_mat cv t frame).2.has_previous = false) ∧
    (process_mat cv t frame).2.tracking_mode = t.tracking_mode ∧
    (process_mat cv t frame).2.detection_confidence = t.detection_confidence ∧
    (process_mat cv t frame).2.smooth_factor = t.smooth_factor ∧
    (process_mat cv t frame).2.initialized = t.initialized := by
  rw [process_mat_eq cv t frame hinit hframe]
  refine ⟨rfl, ?_, ?_, rfl, rfl, rfl, rfl⟩
  · simp only [smooth_confidence]
  · intro hdc hno
    simp only [smooth_confidence, raw_estimate_of_no_candidate cv t frame hno]
    simpa [FaceData.no_face] using hdc

/-- Witness for C3: a tracker that was following a face and finds no candidate any more
ends the call with `has_previous` false. -/
theorem process_mat_state_update_witness :
    ({ warm_tracker with tracking_mode := true } : FaceTracker).initialized = true ∧
    sample_frame.empty = false ∧
    ({ warm_tracker with tracking_mode := true } : FaceTracker).has_previous = true ∧
    (process_mat (sample_cv [] []) { warm_tracker with tracking_mode := true }
      sample_frame).2.has_previous = false :=
  ⟨rfl, rfl, rfl,
    (process_mat_state_update (sample_cv [] []) { warm_tracker with tracking_mode := true }
      sample_frame rfl rfl).2.2.1 (by decide!)
      ⟨rfl, fun _ => Or.inr (Or.inr (by simp [track_candidates, sample_cv]))⟩⟩

/-- C10. On an initialised tracker and a non-empty frame the confidence and the landmarks
of the estimate `process_mat` returns are those of the raw estimate of this frame,
whatever `has_previous` and `smooth_factor` are. -/
theorem process_mat_confidence_landmarks_verbatim (cv : OpenCV) (t : FaceTracker) (frame : Mat)
    (hinit : t.initialized = true) (hframe : frame.empty = false) :
    (process_mat cv t frame).1.confidence = (raw_estimate cv t frame).confidence ∧
    (process_mat cv t frame).1.landmarks = (raw_estimate cv t frame).landmarks := by
  rw [process_mat_eq cv t frame hinit hframe]
  exact ⟨smooth_confidence _ _, smooth_landmarks _ _⟩

/-- Witness for C10: with a previous face and `smooth_factor` 1/2 the returned confidence
is still the raw `4/5`, not a blend with the previous one. -/
theorem process_mat_confidence_landmarks_verbatim_witness :
    warm_tracker.initialized = true ∧ sample_frame.empty = false ∧
    (process_mat (sample_cv [⟨65, 10, 30, 30⟩] []) warm_tracker sample_frame).1.confidence
      = (raw_estimate (sample_cv [⟨65, 10, 30, 30⟩] []) warm_tracker sample_frame).confidence ∧
    (process_mat (sample_cv [⟨65, 10, 30, 30⟩] []) warm_tracker sample_frame).1.landmarks
      = (raw_estimate (sample_cv [⟨65, 10, 30, 30⟩] []) warm_tracker sample_frame).landmarks :=
  ⟨rfl, rfl,
    process_mat_confidence_landmarks_verbatim (sample_cv [⟨65, 10, 30, 30⟩] []) warm_tracker
      sample_frame rfl rfl⟩

/-! ## Confidence constants -/

/-- Full Detection reports confidence 0 without candidate and 0.8 with one. -/
lemma detect_faces_confidence (cv : OpenCV) (gray : Mat) :
    (cv.face_cascade gray ⟨80, 80⟩ ⟨0, 0⟩ = [] → (detect_faces cv gray).confidence = 0) ∧
    (cv.face_cascade gray ⟨80, 80⟩ ⟨0, 0⟩ ≠ [] → (detect_faces cv gray).confidence = 4/5) := by
  unfold detect_faces
  cases h : cv.face_cascade gray ⟨80, 80⟩ ⟨0, 0⟩ with
  | nil => simp [FaceData.no_face]
  | cons a l => simp

/-- Region Tracking falls back to Full Detection on a degenerate search rectangle or
an empty candidate list. -/
lemma track_face_eq_detect_faces (cv : OpenCV) (gray : Mat) (previous : FaceData)
    (h : (search_region gray previous).1.width ≤ 0 ∨ (search_region gray previous).1.height ≤ 0 ∨
         track_candidates cv gray previous = []) :
    track_face cv gray previous = detect_faces cv gray := by
  unfold track_face
  rcases h with hw | hh | hc
  · simp [hw]
  · simp [hh]
  · simp only [hc]
    split <;> rfl

/-- Region Tracking with a candidate reports confidence 0.85. -/
lemma track_face_confidence (cv : OpenCV) (gray : Mat) (previous : FaceData)
    (hw : 0 < (search_region gray previous).1.width)
    (hh : 0 < (search_region gray previous).1.height)
    (hc : track_candidates cv gray previous ≠ []) :
    (track_face cv gray previous).confidence = 17/20 := by
  unfold track_face
  have hdeg : ¬ ((search_region gray previous).1.width ≤ 0 ∨
      (search_region gray previous).1.height ≤ 0) := by
    push_neg
    exact ⟨hw, hh⟩
  simp only [hdeg, if_false]
  cases h : track_candidates cv gray previous with
  | nil => exact absurd h hc
  | cons a l => simp

/-- C4. For every tracker state, frame and detector behaviour the confidence of the
estimate `process_mat` returns is 0, 0.8 or 0.85: 0 on the short-circuit and when no
candidate is found, 0.8 when Full Detection (direct, or reached as the fallback of
Region Tracking) has a candidate, 0.85 when Region Tracking has a candidate. -/
theorem process_mat_confidence_values (cv : OpenCV) (t : FaceTracker) (frame : Mat) :
    ((process_mat cv t frame).1.confidence = 0 ∨ (process_mat cv t frame).1.confidence = 4/5 ∨
      (process_mat cv t frame).1.confidence = 17/20) ∧
    ((t.initialized = false ∨ frame.empty = true) → (process_mat cv t frame).1.confidence = 0) ∧
    (t.initialized = true → frame.empty = false →
      (no_candidate cv t frame → (process_mat cv t frame).1.confidence = 0) ∧
      (t.engine = Engine.FullDetection →
        cv.face_cascade (preprocess cv frame) ⟨80, 80⟩ ⟨0, 0⟩ ≠ [] →
        (process_mat cv t frame).1.confidence = 4/5) ∧
      (t.engine = Engine.RegionTracking →
        ((search_region (preprocess cv frame) t.previous_face).1.width ≤ 0 ∨
          (search_region (preprocess cv frame) t.previous_face).1.height ≤ 0 ∨
          track_candidates cv (preprocess cv frame) t.previous_face = []) →
        cv.face_cascade (preprocess cv frame) ⟨80, 80⟩ ⟨0, 0⟩ ≠ [] →
        (process_mat cv t frame).1.confidence = 4/5) ∧
      (t.engine = Engine.RegionTracking →
        0 < (search_region (preprocess cv frame) t.previous_face).1.width →
        0 < (search_region (preprocess cv frame) t.previous_face).1.height →
        track_candidates cv (preprocess cv frame) t.previous_face ≠ [] →
        (process_mat cv t frame).1.confidence = 17/20)) := by
  have hshort : (t.initialized = false ∨ frame.empty = true) →
      (process_mat cv t frame).1.confidence = 0 := by
    intro h
    rcases h with h | h <;> simp [process_mat, h, FaceData.no_face]
  have hlive : t.initialized = true → frame.empty = false →
      (process_mat cv t frame).1.confidence = (raw_estimate cv t frame).confidence := by
    intro hi hf
    rw [process_mat_eq cv t frame hi hf]
    exact smooth_confidence _ _
  have hdet := detect_faces_confidence cv (preprocess cv frame)
  refine ⟨?_, hshort, ?_⟩
  · cases hi : t.initialized with
    | false => exact Or.inl (hshort (Or.inl hi))
    | true =>
      cases hf : frame.empty with
      | true => exact Or.inl (hshort (Or.inr hf))
      | false =>
        rw [hlive hi hf]
        have hfull : (detect_faces cv (preprocess cv frame)).confidence = 0 ∨
            (detect_faces cv (preprocess cv frame)).confidence = 4/5 := by
          by_cases hc : cv.face_cascade (preprocess cv frame) ⟨80, 80⟩ ⟨0, 0⟩ = []
          · exact Or.inl (hdet.1 hc)
          · exact Or.inr (hdet.2 hc)
        cases heng : t.engine with
        | FullDetection =>
          simp only [raw_estimate, heng, Engine.run]
          rcases hfull with h | h
          · exact Or.inl h
          · exact Or.inr (Or.inl h)
        | RegionTracking =>
          simp only [raw_estimate, heng, Engine.run]
          by_cases hfb : (search_region (preprocess cv frame) t.previous_face).1.width ≤ 0 ∨
              (search_region (preprocess cv frame) t.previous_face).1.height ≤ 0 ∨
              track_candidates cv (preprocess cv frame) t.previous_face = []
          · rw [track_face_eq_detect_faces cv _ _ hfb]
            rcases hfull with h | h
            · exact Or.inl h
            · exact Or.inr (Or.inl h)
          · push_neg at hfb
            exact Or.inr (Or.inr (track_face_confidence cv _ _ hfb.1 hfb.2.1 hfb.2.2))
  · intro hi hf
    rw [hlive hi hf]
    refine ⟨?_, ?_, ?_, ?_⟩
    · intro hno
      rw [raw_estimate_of_no_candidate cv t frame hno]
      rfl
    · intro heng hc
      simp only [raw_estimate, heng, Engine.run]
      exact hdet.2 hc
    · intro heng hfb hc
      simp only [raw_estimate, heng, Engine.run]
      rw [track_face_eq_detect_faces cv _ _ hfb]
      exact hdet.2 hc
    · intro heng hw hh hc
      simp only [raw_estimate, heng, Engine.run]
      exact track_face_confidence cv _ _ hw hh hc

/-! ## Fallback of Region Tracking -/

/-- C6. Fallback of `track_face`: if the search rectangle is degenerate (`search_w <= 0`
or `search_h <= 0`) or the detector reports no candidate in the search region, the result
of `track_face` is the result of `detect_faces` on the same full frame, field for field. -/
theorem track_face_fallback (cv : OpenCV) (gray : Mat) (previous : FaceData)
    (h : (search_region gray previous).1.width ≤ 0 ∨ (search_region gray previous).1.height ≤ 0 ∨
         track_candidates cv gray previous = []) :
    track_face cv gray previous = detect_faces cv gray ∧
    (track_face cv gray previous).center_x = (detect_faces cv gray).center_x ∧
    (track_face cv gray previous).center_y = (detect_faces cv gray).center_y ∧
    (track_face cv gray previous).width = (detect_faces cv gray).width ∧
    (track_face cv gray previous).height = (detect_faces cv gray).height ∧
    (track_face cv gray previous).rotation = (detect_faces cv gray).rotation ∧
    (track_face cv gray previous).confidence = (detect_faces cv gray).confidence ∧
    (track_face cv gray previous).landmarks = (detect_faces cv gray).landmarks ∧
    ((track_face cv gray previous).confidence = 4/5 ∨
      (track_face cv gray previous).confidence = 0) := by
  have heq := track_face_eq_detect_faces cv gray previous h
  rw [heq]
  refine ⟨rfl, rfl, rfl, rfl, rfl, rfl, rfl, rfl, ?_⟩
  by_cases hc : cv.face_cascade gray ⟨80, 80⟩ ⟨0, 0⟩ = []
  · exact Or.inr ((detect_faces_confidence cv gray).1 hc)
  · exact Or.inl ((detect_faces_confidence cv gray).2 hc)

/-- Witness for C6: with the default estimate as previous face the search rectangle has
width 0, and `track_face` returns what `detect_faces` returns. -/
theorem track_face_fallback_witness :
    (search_region sample_frame FaceData.no_face).1.width ≤ 0 ∧
    track_face (sample_cv [⟨65, 10, 30, 30⟩] [⟨1, 1, 5, 5⟩]) sample_frame FaceData.no_face
      = detect_faces (sample_cv [⟨65, 10, 30, 30⟩] [⟨1, 1, 5, 5⟩]) sample_frame ∧
    (detect_faces (sample_cv [⟨65, 10, 30, 30⟩] [⟨1, 1, 5, 5⟩]) sample_frame).confidence = 4/5 :=
  ⟨by decide!,
    (track_face_fallback (sample_cv [⟨65, 10, 30, 30⟩] [⟨1, 1, 5, 5⟩]) sample_frame
      FaceData.no_face (Or.inl (by decide!))).1,
    by decide!⟩

/-! ## Candidate selection in Full Detection -/

/-- The loop of `detect_faces` keeps its start value when nothing is strictly larger,
and otherwise ends on the first candidate of maximum area. -/
lemma largest_face_spec (faces : List Rect) (first : Rect) :
    (largest_face faces first = first ∧ ∀ c ∈ faces, c.area ≤ first.area) ∨
    ∃ before after, faces = before ++ largest_face faces first :: after ∧
      first.area < (largest_face faces first).area ∧
      (∀ c ∈ before, c.area < (largest_face faces first).area) ∧
      (∀ c ∈ after, c.area ≤ (largest_face faces first).area) := by
  induction faces generalizing first with
  | nil => exact Or.inl ⟨rfl, by simp⟩
  | cons a l ih =>
    have hstep : largest_face (a :: l) first
        = largest_face l (if a.area > first.area then a else first) := rfl
    rw [hstep]
    by_cases ha : a.area > first.area
    · simp only [ha, if_true]
      right
      rcases ih a with ⟨heq, hle⟩ | ⟨before, after, hdec, hlt, hb, haf⟩
      · exact ⟨[], l, by simp [heq], by rw [heq]; exact ha, by simp, by rw [heq]; exact hle⟩
      · refine ⟨a :: before, after, by rw [List.cons_append, ← hdec], lt_trans ha hlt, ?_, haf⟩
        intro c hc
        rcases List.mem_cons.mp hc with rfl | hc
        · exact hlt
        · exact hb c hc
    · simp only [ha, if_false]
      have ha' : a.area ≤ first.area := not_lt.mp ha
      rcases ih first with ⟨heq, hle⟩ | ⟨before, after, hdec, hlt, hb, haf⟩
      · left
        refine ⟨heq, ?_⟩
        intro c hc
        rcases List.mem_cons.mp hc with rfl | hc
        · exact ha'
        · exact hle c hc
      · right
        refine ⟨a :: before, after, by rw [List.cons_append, ← hdec], hlt, ?_, haf⟩
        intro c hc
        rcases List.mem_cons.mp hc with rfl | hc
        · exact lt_of_le_of_lt ha' hlt
        · exact hb c hc

/-- Started on `faces[0]`, the loop of `detect_faces` ends on the first candidate, in
emission order, whose area is the maximum. -/
lemma largest_face_first_max (first : Rect) (rest : List Rect) :
    ∃ before after, first :: rest = before ++ largest_face (first :: rest) first :: after ∧
      (∀ c ∈ before, c.area < (largest_face (first :: rest) first).area) ∧
      (∀ c ∈ after, c.area ≤ (largest_face (first :: rest) first).area) := by
  have hstep : largest_face (first :: rest) first = largest_face rest first := by
    simp [largest_face]
  rw [hstep]
  rcases largest_face_spec rest first with ⟨heq, hle⟩ | ⟨before, after, hdec, hlt, hb, haf⟩
  · exact ⟨[], rest, by simp [heq], by simp, by rw [heq]; exact hle⟩
  · refine ⟨first :: before, after, by rw [List.cons_append, ← hdec], ?_, haf⟩
    intro c hc
    rcases List.mem_cons.mp hc with rfl | hc
    · exact hlt
    · exact hb c hc

/-- C7. Candidate selection of `detect_faces`: without candidate the result is the default
estimate `{0.5, 0.5, 0, 0, 0, 0, []}`; with candidates, the selected rectangle `sel` is
a candidate of area at least that of every candidate, every candidate emitted before it
has strictly smaller area (so `sel` is the first of maximum area), and the result has
`center_x = (x + w/2)/W`, `center_y = (y + h/2)/H`, `width = w/W`, `height = h/H` for
`sel` and confidence 0.8. -/
theorem detect_faces_selection (cv : OpenCV) (gray : Mat) :
    (cv.face_cascade gray ⟨80, 80⟩ ⟨0, 0⟩ = [] →
      detect_faces cv gray = FaceData.no_face ∧
      detect_faces cv gray = ⟨1/2, 1/2, 0, 0, 0, 0, []⟩) ∧
    (cv.face_cascade gray ⟨80, 80⟩ ⟨0, 0⟩ ≠ [] →
      ∃ sel before after,
        cv.face_cascade gray ⟨80, 80⟩ ⟨0, 0⟩ = before ++ sel :: after ∧
        (∀ c ∈ cv.face_cascade gray ⟨80, 80⟩ ⟨0, 0⟩, c.area ≤ sel.area) ∧
        (∀ c ∈ before, c.area < sel.area) ∧
        (detect_faces cv gray).center_x
          = ((sel.x : ℚ) + (sel.width : ℚ) / 2) / (gray.cols : ℚ) ∧
        (detect_faces cv gray).center_y
          = ((sel.y : ℚ) + (sel.height : ℚ) / 2) / (gray.rows : ℚ) ∧
        (detect_faces cv gray).width = (sel.width : ℚ) / (gray.cols : ℚ) ∧
        (detect_faces cv gray).height = (sel.height : ℚ) / (gray.rows : ℚ) ∧
        (detect_faces cv gray).confidence = 4/5) := by
  constructor
  · intro h
    simp [detect_faces, h, FaceData.no_face]
  · intro hne
    cases hfaces : cv.face_cascade gray ⟨80, 80⟩ ⟨0, 0⟩ with
    | nil => exact absurd hfaces hne
    | cons first rest =>
      obtain ⟨before, after, hdec, hb, haf⟩ := largest_face_first_max first rest
      refine ⟨largest_face (first :: rest) first, before, after, hdec, ?_, hb, ?_⟩
      · intro c hc
        rw [hdec] at hc
        rcases List.mem_append.mp hc with hc | hc
        · exact le_of_lt (hb c hc)
        · rcases List.mem_cons.mp hc with rfl | hc
          · exact le_refl _
          · exact haf c hc
      · simp [detect_faces, hfaces]

/-- Witness for C7 on concrete candidates: of two candidates of the same, maximal, area
`40 * 40 = 20 * 80` the one emitted first is selected, and a smaller earlier one is not. -/
theorem detect_faces_selection_witness :
    detect_faces (sample_cv [] []) sample_frame = ⟨1/2, 1/2, 0, 0, 0, 0, []⟩ ∧
    detect_faces (sample_cv [⟨0, 0, 30, 30⟩, ⟨50, 10, 40, 40⟩, ⟨10, 10, 20, 80⟩] []) sample_frame
      = ⟨7/10, 3/10, 2/5, 2/5, 0, 4/5, []⟩ :=
  ⟨((detect_faces_selection (sample_cv [] []) sample_frame).1 rfl).2, by decide!⟩

/-! ## Candidate selection in Region Tracking -/

/-- The loop of `track_face`: the distance it ends with is at most the one it started
with and at most that of every candidate, and unless the loop state never changed it
is the distance of the candidate it ends with. -/
lemma closest_fold_spec (d : Rect → ℚ) (faces : List Rect) (b : Rect × ℚ) :
    (faces.foldl (fun best face => if d face < best.2 then (face, d face) else best) b).2
      ≤ b.2 ∧
    (∀ c ∈ faces,
      (faces.foldl (fun best face => if d face < best.2 then (face, d face) else best) b).2
        ≤ d c) ∧
    (faces.foldl (fun best face => if d face < best.2 then (face, d face) else best) b = b ∨
      ((faces.foldl (fun best face => if d face < best.2 then (face, d face) else best) b).1
          ∈ faces ∧
        (faces.foldl (fun best face => if d face < best.2 then (face, d face) else best) b).2
          = d (faces.foldl
              (fun best face => if d face < best.2 then (face, d face) else best) b).1)) := by
  induction faces generalizing b with
  | nil => simp
  | cons a l ih =>
    simp only [List.foldl_cons]
    by_cases ha : d a < b.2
    · simp only [ha, if_true]
      obtain ⟨h1, h2, h3⟩ := ih (a, d a)
      refine ⟨le_trans h1 (le_of_lt ha), ?_, ?_⟩
      · intro c hc
        rcases List.mem_cons.mp hc with rfl | hc
        · exact h1
        · exact h2 c hc
      · right
        rcases h3 with h3 | ⟨h3, h4⟩
        · rw [h3]
          exact ⟨List.mem_cons_self _ _, rfl⟩
        · exact ⟨List.mem_cons_of_mem _ h3, h4⟩
    · simp only [ha, if_false]
      obtain ⟨h1, h2, h3⟩ := ih b
      refine ⟨h1, ?_, ?_⟩
      · intro c hc
        rcases List.mem_cons.mp hc with rfl | hc
        · exact le_trans h1 (not_lt.mp ha)
        · exact h2 c hc
      · rcases h3 with h3 | ⟨h3, h4⟩
        · exact Or.inl h3
        · exact Or.inr ⟨List.mem_cons_of_mem _ h3, h4⟩

/-- The search rectangle of `track_face` starts inside the image and does not pass its
right and bottom edges. -/
lemma search_region_bounds (gray : Mat) (previous : FaceData) :
    0 ≤ (search_region gray previous).1.x ∧ 0 ≤ (search_region gray previous).1.y ∧
    (search_region gray previous).1.x + (search_region gray previous).1.width
      ≤ (gray.cols : Int) ∧
    (search_region gray previous).1.y + (search_region gray previous).1.height
      ≤ (gray.rows : Int) := by
  simp only [search_region]
  refine ⟨le_max_left _ _, le_max_left _ _, ?_, ?_⟩ <;> omega

/-- A normalised centre `(o + x + w/2) / W` of a box `[o + x, o + x + w]` inside `[0, W]`
lies in `[0, 1]`. -/
lemma center_in_unit (o x w W : Int) (hW : 0 < W) (ho : 0 ≤ o) (hx : 0 ≤ x) (hw : 0 ≤ w)
    (hb : o + x + w ≤ W) :
    0 ≤ ((o : ℚ) + (x : ℚ) + (w : ℚ) / 2) / (W : ℚ) ∧
    ((o : ℚ) + (x : ℚ) + (w : ℚ) / 2) / (W : ℚ) ≤ 1 := by
  have hW' : (0 : ℚ) < (W : ℚ) := by exact_mod_cast hW
  have ho' : (0 : ℚ) ≤ (o : ℚ) := by exact_mod_cast ho
  have hx' : (0 : ℚ) ≤ (x : ℚ) := by exact_mod_cast hx
  have hw' : (0 : ℚ) ≤ (w : ℚ) := by exact_mod_cast hw
  have hb' : (o : ℚ) + (x : ℚ) + (w : ℚ) ≤ (W : ℚ) := by exact_mod_cast hb
  constructor
  · apply div_nonneg _ (le_of_lt hW')
    linarith
  · rw [div_le_one hW']
    linarith

/-- A normalised extent `w / W` with `0 ≤ w ≤ W` lies in `[0, 1]`. -/
lemma extent_in_unit (w W : Int) (hW : 0 < W) (hw : 0 ≤ w) (hb : w ≤ W) :
    0 ≤ (w : ℚ) / (W : ℚ) ∧ (w : ℚ) / (W : ℚ) ≤ 1 := by
  have hW' : (0 : ℚ) < (W : ℚ) := by exact_mod_cast hW
  have hw' : (0 : ℚ) ≤ (w : ℚ) := by exact_mod_cast hw
  have hb' : (w : ℚ) ≤ (W : ℚ) := by exact_mod_cast hb
  exact ⟨div_nonneg hw' (le_of_lt hW'), (div_le_one hW').mpr hb'⟩

/-- The truncated quotient `w / W` of integers `0 ≤ w ≤ W` is 0 or 1, so in `[0, 1]`. -/
lemma tdiv_in_unit (w W : Int) (hW : 0 < W) (hw : 0 ≤ w) (hb : w ≤ W) :
    0 ≤ ((Int.tdiv w W : Int) : ℚ) ∧ ((Int.tdiv w W : Int) : ℚ) ≤ 1 := by
  rw [Int.tdiv_eq_ediv hw (le_of_lt hW)]
  have h0 : 0 ≤ w / W := Int.ediv_nonneg hw (le_of_lt hW)
  have h1 : w / W ≤ 1 := by
    have := Int.ediv_le_ediv hW hb
    rwa [Int.ediv_self (ne_of_gt hW)] at this
  exact ⟨by exact_mod_cast h0, by exact_mod_cast h1⟩


/-- The loop of `detect_faces` ends on one of the candidates. -/
lemma largest_face_mem (first : Rect) (rest : List Rect) :
    largest_face (first :: rest) first ∈ first :: rest := by
  obtain ⟨before, after, hdec, _, _⟩ := largest_face_first_max first rest
  have h : largest_face (first :: rest) first
      ∈ before ++ largest_face (first :: rest) first :: after := by simp
  rw [← hdec] at h
  exact h

/-- The loop of `track_face` ends on one of the candidates. -/
lemma closest_face_mem (d : Rect → ℚ) (first : Rect) (rest : List Rect) :
    (closest_face d (first :: rest) first).1 ∈ first :: rest := by
  obtain ⟨_, _, h3⟩ := closest_fold_spec d (first :: rest) (first, FLT_MAX)
  unfold closest_face
  rcases h3 with h3 | ⟨h3, _⟩
  · rw [h3]
    exact List.mem_cons_self _ _
  · exact h3

/-- The default estimate is normalised. -/
lemma no_face_in_range : FaceData.no_face.in_range := by
  simp only [FaceData.in_range, FaceData.no_face]
  norm_num

/-- Full Detection returns a normalised estimate when the detector stays inside the image. -/
lemma detect_faces_in_range (cv : OpenCV) (hdet : cv.detector_inside) (gray : Mat)
    (hc : 0 < gray.cols) (hr : 0 < gray.rows) : (detect_faces cv gray).in_range := by
  unfold detect_faces
  cases hfaces : cv.face_cascade gray ⟨80, 80⟩ ⟨0, 0⟩ with
  | nil => exact no_face_in_range
  | cons first rest =>
    have hmem : largest_face (first :: rest) first ∈ cv.face_cascade gray ⟨80, 80⟩ ⟨0, 0⟩ := by
      rw [hfaces]
      exact largest_face_mem first rest
    obtain ⟨hx, hy, hw, hh, hbx, hby⟩ := hdet gray _ _ _ hmem
    have hW : (0 : Int) < (gray.cols : Int) := by exact_mod_cast hc
    have hH : (0 : Int) < (gray.rows : Int) := by exact_mod_cast hr
    have cx := center_in_unit 0 _ _ _ hW (le_refl 0) hx hw (by omega)
    have cy := center_in_unit 0 _ _ _ hH (le_refl 0) hy hh (by omega)
    have ew := extent_in_unit _ _ hW hw (by omega)
    have eh := extent_in_unit _ _ hH hh (by omega)
    simp only [Int.cast_zero, zero_add, Int.cast_natCast] at cx cy ew eh
    exact ⟨cx, cy, ew, eh⟩

/-- Region Tracking returns a normalised estimate when the detector stays inside the
image it is given. -/
lemma track_face_in_range (cv : OpenCV) (hdet : cv.detector_inside) (gray : Mat)
    (previous : FaceData) (hc : 0 < gray.cols) (hr : 0 < gray.rows) :
    (track_face cv gray previous).in_range := by
  by_cases hfb : (search_region gray previous).1.width ≤ 0 ∨
      (search_region gray previous).1.height ≤ 0 ∨ track_candidates cv gray previous = []
  · rw [track_face_eq_detect_faces cv gray previous hfb]
    exact detect_faces_in_range cv hdet gray hc hr
  · push_neg at hfb
    obtain ⟨hsw, hsh, hne⟩ := hfb
    have hdeg : ¬ ((search_region gray previous).1.width ≤ 0 ∨
        (search_region gray previous).1.height ≤ 0) := by
      push_neg
      exact ⟨hsw, hsh⟩
    obtain ⟨hsx, hsy, hbx, hby⟩ := search_region_bounds gray previous
    unfold track_face
    simp only [hdeg, if_false]
    cases hfaces : track_candidates cv gray previous with
    | nil => exact absurd hfaces hne
    | cons first rest =>
      have hmem := closest_face_mem (dist cv gray previous (search_region gray previous).1)
        first rest
      rw [← hfaces] at hmem
      have hin := hdet _ _ _ _ hmem
      obtain ⟨hx, hy, hw, hh, hcx, hcy⟩ := hin
      simp only [OpenCV.roi] at hcx hcy
      rw [Int.toNat_of_nonneg (le_of_lt hsw)] at hcx
      rw [Int.toNat_of_nonneg (le_of_lt hsh)] at hcy
      have hW : (0 : Int) < (gray.cols : Int) := by exact_mod_cast hc
      have hH : (0 : Int) < (gray.rows : Int) := by exact_mod_cast hr
      rw [hfaces] at hx hy hw hh hcx hcy
      have cx := center_in_unit _ _ _ _ hW hsx hx hw (by omega)
      have cy := center_in_unit _ _ _ _ hH hsy hy hh (by omega)
      have ew := tdiv_in_unit _ _ hW hw (by omega)
      have eh := tdiv_in_unit _ _ hH hh (by omega)
      exact ⟨cx, cy, ew, eh⟩


/-- A blend `p * (1 - a) + c * a` of two numbers of `[0, 1]` with weight `a` in `[0, 1]`
lies in `[0, 1]`. -/
lemma blend_in_unit (p c a : ℚ) (ha : 0 ≤ a ∧ a ≤ 1) (hp : 0 ≤ p ∧ p ≤ 1) (hc : 0 ≤ c ∧ c ≤ 1) :
    0 ≤ p * (1 - a) + c * a ∧ p * (1 - a) + c * a ≤ 1 := by
  have h1 : 0 ≤ 1 - a := by linarith [ha.2]
  constructor
  · exact add_nonneg (mul_nonneg hp.1 h1) (mul_nonneg hc.1 ha.1)
  · have h2 : p * (1 - a) ≤ 1 * (1 - a) := mul_le_mul_of_nonneg_right hp.2 h1
    have h3 : c * a ≤ 1 * a := mul_le_mul_of_nonneg_right hc.2 ha.1
    linarith

/-- Smoothing keeps the estimate normalised. -/
lemma smooth_in_range (t : FaceTracker) (f : FaceData)
    (ha : 0 ≤ t.smooth_factor ∧ t.smooth_factor ≤ 1) (hp : t.previous_face.in_range)
    (hf : f.in_range) : (smooth t f).in_range := by
  unfold smooth
  split
  · exact ⟨blend_in_unit _ _ _ ha hp.1 hf.1, blend_in_unit _ _ _ ha hp.2.1 hf.2.1,
      blend_in_unit _ _ _ ha hp.2.2.1 hf.2.2.1, blend_in_unit _ _ _ ha hp.2.2.2 hf.2.2.2⟩
  · exact hf

/-- Preprocessing keeps the dimensions of the frame. -/
lemma preprocess_dims (cv : OpenCV) (frame : Mat) :
    (preprocess cv frame).cols = frame.cols ∧ (preprocess cv frame).rows = frame.rows := by
  unfold preprocess
  split_ifs <;> simp [OpenCV.equalizeHist, OpenCV.cvtColor]

/-- One call of `process_mat` keeps the returned and the stored estimate normalised. -/
lemma process_mat_in_range (cv : OpenCV) (hdet : cv.detector_inside) (t : FaceTracker)
    (ha : 0 ≤ t.smooth_factor ∧ t.smooth_factor ≤ 1) (hp : t.previous_face.in_range)
    (frame : Mat) :
    (process_mat cv t frame).1.in_range ∧ (process_mat cv t frame).2.previous_face.in_range ∧
    (process_mat cv t frame).2.smooth_factor = t.smooth_factor := by
  by_cases hshort : (!t.initialized || frame.empty) = true
  · simp only [process_mat, hshort, if_true]
    exact ⟨no_face_in_range, hp, trivial⟩
  · have hi : t.initialized = true := by
      cases h : t.initialized <;> simp [h] at hshort ⊢
    have hf : frame.empty = false := by
      cases h : frame.empty <;> simp [h] at hshort ⊢
    rw [process_mat_eq cv t frame hi hf]
    have hne : 0 < frame.rows ∧ 0 < frame.cols := by
      simp only [Mat.empty, Bool.or_eq_false_iff, beq_eq_false_iff_ne, ne_eq] at hf
      exact ⟨Nat.pos_of_ne_zero hf.1, Nat.pos_of_ne_zero hf.2⟩
    obtain ⟨hcols, hrows⟩ := preprocess_dims cv frame
    have hc : 0 < (preprocess cv frame).cols := by rw [hcols]; exact hne.2
    have hr : 0 < (preprocess cv frame).rows := by rw [hrows]; exact hne.1
    have hraw : (raw_estimate cv t frame).in_range := by
      unfold raw_estimate
      cases t.engine with
      | RegionTracking => exact track_face_in_range cv hdet _ _ hc hr
      | FullDetection => exact detect_faces_in_range cv hdet _ hc hr
    have hs := smooth_in_range t _ ha hp hraw
    exact ⟨hs, hs, rfl⟩

/-- Every call of a sequence keeps the returned and the stored estimate normalised. -/
lemma process_all_in_range (cv : OpenCV) (hdet : cv.detector_inside) (frames : List Mat) :
    ∀ t : FaceTracker, 0 ≤ t.smooth_factor ∧ t.smooth_factor ≤ 1 → t.previous_face.in_range →
      (∀ f ∈ (process_all cv t frames).1, f.in_range) ∧
      (process_all cv t frames).2.previous_face.in_range := by
  induction frames with
  | nil =>
    intro t _ hp
    simp [process_all, hp]
  | cons frame rest ih =>
    intro t ha hp
    obtain ⟨h1, h2, h3⟩ := process_mat_in_range cv hdet t ha hp frame
    obtain ⟨h4, h5⟩ := ih (process_mat cv t frame).2 (by rw [h3]; exact ha) h2
    simp only [process_all]
    refine ⟨?_, h5⟩
    intro f hf
    rcases List.mem_cons.mp hf with rfl | hf
    · exact h1
    · exact h4 f hf


/-- C5. Range invariant: if the face detector only reports rectangles inside the image
(or sub-image) it is given, `smooth_factor` is in `[0, 1]` and the stored previous
estimate has `center_x`, `center_y`, `width`, `height` in `[0, 1]`, then for every frame
the estimate `process_mat` returns has these four fields in `[0, 1]` and so has the new
stored estimate; hence this holds for every frame of every sequence of frames, in
particular from the freshly constructed tracker, initialised or not. -/
theorem process_mat_range (cv : OpenCV) (hdet : cv.detector_inside) (t : FaceTracker)
    (ha : 0 ≤ t.smooth_factor ∧ t.smooth_factor ≤ 1) (hp : t.previous_face.in_range) :
    (∀ frame : Mat, (process_mat cv t frame).1.in_range ∧
      (process_mat cv t frame).2.previous_face.in_range) ∧
    (∀ frames : List Mat, (∀ f ∈ (process_all cv t frames).1, f.in_range) ∧
      (process_all cv t frames).2.previous_face.in_range) ∧
    (∀ (init : Bool) (frames : List Mat),
      ∀ f ∈ (process_all cv { FaceTracker.new with initialized := init } frames).1,
        f.in_range) := by
  refine ⟨fun frame => ?_, fun frames => process_all_in_range cv hdet frames t ha hp, ?_⟩
  · obtain ⟨h1, h2, _⟩ := process_mat_in_range cv hdet t ha hp frame
    exact ⟨h1, h2⟩
  · intro init frames
    refine (process_all_in_range cv hdet frames _ ?_ ?_).1
    · simp only [FaceTracker.new]
      norm_num
    · exact no_face_in_range

/-- The sample detector `inside_cv` stays inside the image it is given. -/
lemma inside_cv_detector_inside : inside_cv.detector_inside := by
  intro img mn mx r hr
  simp only [inside_cv] at hr
  split_ifs at hr with h
  · simp only [List.mem_cons, List.mem_singleton, List.not_mem_nil, or_false] at hr
    rcases hr with rfl | rfl <;> simp only [Rect.inside] <;> omega
  · simp at hr

/-- Witness for C5: two calls on the sample frame with a detector that stays inside the
image, the second one through Region Tracking. -/
theorem process_mat_range_witness :
    inside_cv.detector_inside ∧
    (0 ≤ fresh_tracker.smooth_factor ∧ fresh_tracker.smooth_factor ≤ 1) ∧
    fresh_tracker.previous_face.in_range ∧
    (process_all inside_cv fresh_tracker [sample_frame, sample_frame]).1
      = [⟨2/5, 2/5, 4/5, 4/5, 0, 4/5, []⟩, ⟨2/5, 2/5, 14/25, 14/25, 0, 17/20, []⟩] ∧
    (∀ f ∈ (process_all inside_cv fresh_tracker [sample_frame, sample_frame]).1, f.in_range) :=
  ⟨inside_cv_detector_inside, by decide!, no_face_in_range, by decide!,
    ((process_mat_range inside_cv inside_cv_detector_inside fresh_tracker (by decide!)
      no_face_in_range).2.1 [sample_frame, sample_frame]).1⟩


/-- C9 fails on the code: `track_face` divides the `int` candidate size by the `int`
image size (lines 288-289), so a 30 x 30 candidate in the 100 x 100 sample frame gets
`width = 0` and `height = 0` instead of the ratio `3/10`, which `detect_faces` reports
for the same rectangle. -/
theorem track_face_extent_truncated :
    (search_region sample_frame sample_previous).1 = ⟨50, 0, 50, 60⟩ ∧
    track_candidates (sample_cv [⟨60, 10, 30, 30⟩] [⟨10, 10, 30, 30⟩]) sample_frame
      sample_previous = [⟨10, 10, 30, 30⟩] ∧
    track_face (sample_cv [⟨60, 10, 30, 30⟩] [⟨10, 10, 30, 30⟩]) sample_frame sample_previous
      = ⟨3/4, 1/4, 0, 0, 0, 17/20, []⟩ ∧
    (track_face (sample_cv [⟨60, 10, 30, 30⟩] [⟨10, 10, 30, 30⟩]) sample_frame
      sample_previous).width ≠ (30 : ℚ) / 100 ∧
    detect_faces (sample_cv [⟨60, 10, 30, 30⟩] [⟨10, 10, 30, 30⟩]) sample_frame
      = ⟨3/4, 1/4, 3/10, 3/10, 0, 4/5, []⟩ := by
  decide!

/-! ## Short-circuit of `process_mat` -/

/-- C11. Short-circuit of `process_mat`: if the tracker is not initialised (never
initialised, initialisation failed, or shut down) or the frame is empty, the call returns
the default estimate `{0.5, 0.5, 0, 0, 0, 0, []}` and the tracker unchanged, whatever the
detector would report (it is not consulted); so two calls with an empty frame on the
freshly constructed tracker both return the default and leave the tracker as constructed. -/
theorem process_mat_short_circuit (cv : OpenCV) (t : FaceTracker) (frame : Mat)
    (h : t.initialized = false ∨ frame.empty = true) :
    process_mat cv t frame = (FaceData.no_face, t) ∧
    (process_mat cv t frame).1 = ⟨1/2, 1/2, 0, 0, 0, 0, []⟩ ∧
    (process_mat cv t frame).2 = t ∧
    (∀ cv2 : OpenCV, process_mat cv2 t frame = process_mat cv t frame) ∧
    (∀ cascades_loaded : Bool,
      ( FaceTracker.initialize FaceTracker.new false).2.initialized = false ∧
      (FaceTracker.shutdown t).initialized = false ∧
      (process_mat cv ( FaceTracker.initialize FaceTracker.new false).2 frame).1
        = FaceData.no_face ∧
      (process_mat cv (FaceTracker.shutdown
        ( FaceTracker.initialize FaceTracker.new cascades_loaded).2) frame).1
        = FaceData.no_face) ∧
    (∀ empty_frame : Mat, empty_frame.empty = true →
      (process_all cv FaceTracker.new [empty_frame, empty_frame]).1
        = [FaceData.no_face, FaceData.no_face] ∧
      (process_all cv FaceTracker.new [empty_frame, empty_frame]).2 = FaceTracker.new ∧
      (process_all cv { FaceTracker.new with initialized := true }
        [empty_frame, empty_frame]).1 = [FaceData.no_face, FaceData.no_face] ∧
      (process_all cv { FaceTracker.new with initialized := true }
        [empty_frame, empty_frame]).2 = { FaceTracker.new with initialized := true }) := by
  have hshort : ∀ (c : OpenCV) (u : FaceTracker) (f : Mat),
      (u.initialized = false ∨ f.empty = true) → process_mat c u f = (FaceData.no_face, u) := by
    intro c u f hu
    rcases hu with hu | hu <;> simp [process_mat, hu]
  refine ⟨hshort cv t frame h, ?_, ?_, ?_, ?_, ?_⟩
  · rw [hshort cv t frame h]
    rfl
  · rw [hshort cv t frame h]
  · intro cv2
    rw [hshort cv t frame h, hshort cv2 t frame h]
  · intro cascades_loaded
    refine ⟨rfl, rfl, ?_, ?_⟩
    · rw [hshort cv _ frame (Or.inl rfl)]
    · rw [hshort cv _ frame (Or.inl rfl)]
  · intro empty_frame he
    simp only [process_all]
    rw [hshort cv FaceTracker.new empty_frame (Or.inr he)]
    simp only
    rw [hshort cv FaceTracker.new empty_frame (Or.inr he),
      hshort cv { FaceTracker.new with initialized := true } empty_frame (Or.inr he)]
    simp only
    rw [hshort cv { FaceTracker.new with initialized := true } empty_frame (Or.inr he)]
    refine ⟨?_, ?_, ?_, ?_⟩ <;> first | rfl | trivial

/-- Witness for C11: an initialised tracker that holds a face, an empty frame, and a
detector that would report a face. -/
theorem process_mat_short_circuit_witness :
    ({ rows := 0, cols := 0, channels := 1, data := [] } : Mat).empty = true ∧
    process_mat (sample_cv [⟨65, 10, 30, 30⟩] [⟨1, 1, 5, 5⟩]) warm_tracker
      { rows := 0, cols := 0, channels := 1, data := [] } = (FaceData.no_face, warm_tracker) :=
  ⟨rfl, (process_mat_short_circuit (sample_cv [⟨65, 10, 30, 30⟩] [⟨1, 1, 5, 5⟩]) warm_tracker
    { rows := 0, cols := 0, channels := 1, data := [] } (Or.inr rfl)).1⟩

/-! ## Configuration -/

/-- C14. The setter `set_detection_confidence` clamps: for every input `v` the stored
threshold is in `[0, 1]`; it is `v` when `0 ≤ v ≤ 1`, `0` when `v < 0`, `1` when `v > 1`;
setting the stored value again changes nothing; no other member changes. -/
theorem set_detection_confidence_clamps (t : FaceTracker) (v : ℚ) :
    (0 ≤ (FaceTracker.set_detection_confidence t v).detection_confidence ∧
      (FaceTracker.set_detection_confidence t v).detection_confidence ≤ 1) ∧
    (0 ≤ v → v ≤ 1 → (FaceTracker.set_detection_confidence t v).detection_confidence = v) ∧
    (v < 0 → (FaceTracker.set_detection_confidence t v).detection_confidence = 0) ∧
    (1 < v → (FaceTracker.set_detection_confidence t v).detection_confidence = 1) ∧
    FaceTracker.set_detection_confidence (FaceTracker.set_detection_confidence t v)
      (FaceTracker.set_detection_confidence t v).detection_confidence
      = FaceTracker.set_detection_confidence t v ∧
    (FaceTracker.set_detection_confidence t v).initialized = t.initialized ∧
    (FaceTracker.set_detection_confidence t v).tracking_mode = t.tracking_mode ∧
    (FaceTracker.set_detection_confidence t v).previous_face = t.previous_face ∧
    (FaceTracker.set_detection_confidence t v).has_previous = t.has_previous ∧
    (FaceTracker.set_detection_confidence t v).smooth_factor = t.smooth_factor := by
  have h0 : (0 : ℚ) ≤ max 0 (min 1 v) := le_max_left _ _
  have h1 : max 0 (min 1 v) ≤ (1 : ℚ) := max_le (by norm_num) (min_le_left _ _)
  refine ⟨⟨h0, h1⟩, ?_, ?_, ?_, ?_, rfl, rfl, rfl, rfl, rfl⟩
  · intro hv0 hv1
    simp only [FaceTracker.set_detection_confidence]
    rw [min_eq_right hv1, max_eq_right hv0]
  · intro hv
    simp only [FaceTracker.set_detection_confidence]
    rw [min_eq_right (by linarith), max_eq_left (le_of_lt hv)]
  · intro hv
    simp only [FaceTracker.set_detection_confidence]
    rw [min_eq_left (le_of_lt hv), max_eq_right (by norm_num)]
  · simp only [FaceTracker.set_detection_confidence]
    rw [min_eq_right h1, max_eq_right h0]

/-! ## The search rectangle -/

/-- C13. Published signal of `update_face_tracking`: when the filter has a tracker and a
target, with `e` the estimate `process_frame` returns, after the update each of
`face_center.x`, `face_center.y`, `face_size.x`, `face_size.y`, `face_rotation` equals
`old * (1 - alpha) + e.field * alpha` with `alpha = filter.smooth_factor`,
`face_confidence` is `e.confidence` unblended and `face_detected` is `e.confidence > 0.5`. -/
theorem update_face_tracking_publishes (filter : snapfilter_data) (tracker : FaceTracker)
    (htracker : filter.face_tracker = some tracker) :
    (update_face_tracking filter true).face_center.x
      = filter.face_center.x * (1 - filter.smooth_factor)
        + (FaceTracker.process_frame tracker true).1.center_x * filter.smooth_factor ∧
    (update_face_tracking filter true).face_center.y
      = filter.face_center.y * (1 - filter.smooth_factor)
        + (FaceTracker.process_frame tracker true).1.center_y * filter.smooth_factor ∧
    (update_face_tracking filter true).face_size.x
      = filter.face_size.x * (1 - filter.smooth_factor)
        + (FaceTracker.process_frame tracker true).1.width * filter.smooth_factor ∧
    (update_face_tracking filter true).face_size.y
      = filter.face_size.y * (1 - filter.smooth_factor)
        + (FaceTracker.process_frame tracker true).1.height * filter.smooth_factor ∧
    (update_face_tracking filter true).face_rotation
      = filter.face_rotation * (1 - filter.smooth_factor)
        + (FaceTracker.process_frame tracker true).1.rotation * filter.smooth_factor ∧
    (update_face_tracking filter true).face_confidence
      = (FaceTracker.process_frame tracker true).1.confidence ∧
    (update_face_tracking filter true).face_detected
      = decide ((FaceTracker.process_frame tracker true).1.confidence > 1/2) := by
  simp [update_face_tracking, htracker]

/-- Witness for C13, the numbers of the specification: old centre x 0.2, old width 0.1,
estimate `center_x` 0.8 and `width` 0.3, `alpha` 0.5 publish centre x 0.5 and width 0.2. -/
theorem update_face_tracking_publishes_witness :
    sample_filter.face_center.x = 1/5 ∧ sample_filter.face_size.x = 1/10 ∧
    sample_filter.smooth_factor = 1/2 ∧
    (FaceTracker.process_frame
      { initialized := true, tracking_mode := true, detection_confidence := 1/2,
        previous_face := { center_x := 4/5, center_y := 1/4, width := 3/10, height := 3/10,
                           rotation := 0, confidence := 4/5, landmarks := [] },
        has_previous := true, smooth_factor := 3/10 } true).1.center_x = 4/5 ∧
    (FaceTracker.process_frame
      { initialized := true, tracking_mode := true, detection_confidence := 1/2,
        previous_face := { center_x := 4/5, center_y := 1/4, width := 3/10, height := 3/10,
                           rotation := 0, confidence := 4/5, landmarks := [] },
        has_previous := true, smooth_factor := 3/10 } true).1.width = 3/10 ∧
    (update_face_tracking sample_filter true).face_center.x = 1/2 ∧
    (update_face_tracking sample_filter true).face_size.x = 1/5 ∧
    (update_face_tracking sample_filter true).face_detected = true := by
  have h := update_face_tracking_publishes sample_filter _ rfl
  refine ⟨rfl, rfl, rfl, by decide!, by decide!, ?_, ?_, ?_⟩
  · rw [h.1]
    decide!
  · rw [h.2.2.1]
    decide!
  · rw [h.2.2.2.2.2.2]
    decide!

/-! ## Rotation -/

/-- C12. The method `calculate_rotation`: fewer than 2 landmarks give 0; at least 2 give
`atan2(p1.y - p0.y, p1.x - p0.x)` of the first two points in the given order, whatever
the later points.  So `[]` and `[(0,0)]` give 0, and `[(0,0),(1,0)]`, `[(0,0),(0,1)]`,
`[(1,0),(0,0)]` give `atan2(0, 1)`, `atan2(1, 0)`, `atan2(0, -1)`, whose exact values
are `0`, `π/2` and `π`: with an `atan2` accurate within `ε` the results are within `ε`
of these, and the swapped pair gives `π` rather than `0`. -/
theorem calculate_rotation_spec (cv : OpenCV) :
    (∀ landmarks : List Point2f, landmarks.length < 2 →
      calculate_rotation cv landmarks = 0) ∧
    (∀ (p0 p1 : Point2f) (later : List Point2f),
      calculate_rotation cv (p0 :: p1 :: later) = cv.atan2 (p1.y - p0.y) (p1.x - p0.x)) ∧
    (∀ (p0 p1 : Point2f) (later other : List Point2f),
      calculate_rotation cv (p0 :: p1 :: later) = calculate_rotation cv (p0 :: p1 :: other)) ∧
    calculate_rotation cv [] = 0 ∧
    calculate_rotation cv [⟨0, 0⟩] = 0 ∧
    calculate_rotation cv [⟨0, 0⟩, ⟨1, 0⟩] = cv.atan2 0 1 ∧
    calculate_rotation cv [⟨0, 0⟩, ⟨0, 1⟩] = cv.atan2 1 0 ∧
    calculate_rotation cv [⟨1, 0⟩, ⟨0, 0⟩] = cv.atan2 0 (-1) ∧
    Complex.arg (Complex.mk 1 0) = 0 ∧
    Complex.arg (Complex.mk 0 1) = Real.pi / 2 ∧
    Complex.arg (Complex.mk (-1) 0) = Real.pi ∧
    (∀ ε : ℝ,
      |((cv.atan2 0 1 : ℚ) : ℝ) - Complex.arg (Complex.mk 1 0)| ≤ ε →
      |((cv.atan2 1 0 : ℚ) : ℝ) - Complex.arg (Complex.mk 0 1)| ≤ ε →
      |((cv.atan2 0 (-1) : ℚ) : ℝ) - Complex.arg (Complex.mk (-1) 0)| ≤ ε →
      |((calculate_rotation cv [⟨0, 0⟩, ⟨1, 0⟩] : ℚ) : ℝ) - 0| ≤ ε ∧
      |((calculate_rotation cv [⟨0, 0⟩, ⟨0, 1⟩] : ℚ) : ℝ) - Real.pi / 2| ≤ ε ∧
      |((calculate_rotation cv [⟨1, 0⟩, ⟨0, 0⟩] : ℚ) : ℝ) - Real.pi| ≤ ε) := by
  have e1 : Complex.mk 1 0 = 1 := rfl
  have e2 : Complex.mk 0 1 = Complex.I := rfl
  have e3 : Complex.mk (-1) 0 = -1 := by
    apply Complex.ext <;> simp
  have a1 : Complex.arg (Complex.mk 1 0) = 0 := by rw [e1, Complex.arg_one]
  have a2 : Complex.arg (Complex.mk 0 1) = Real.pi / 2 := by rw [e2, Complex.arg_I]
  have a3 : Complex.arg (Complex.mk (-1) 0) = Real.pi := by rw [e3, Complex.arg_neg_one]
  have r1 : calculate_rotation cv [⟨0, 0⟩, ⟨1, 0⟩] = cv.atan2 0 1 := by
    simp [calculate_rotation]
  have r2 : calculate_rotation cv [⟨0, 0⟩, ⟨0, 1⟩] = cv.atan2 1 0 := by
    simp [calculate_rotation]
  have r3 : calculate_rotation cv [⟨1, 0⟩, ⟨0, 0⟩] = cv.atan2 0 (-1) := by
    simp [calculate_rotation]
  refine ⟨?_, fun _ _ _ => rfl, fun _ _ _ _ => rfl, rfl, rfl, r1, r2, r3, a1, a2, a3, ?_⟩
  · intro landmarks hlen
    match landmarks, hlen with
    | [], _ => rfl
    | [_], _ => rfl
    | _ :: _ :: _, h => exact absurd h (by simp)
  · intro ε h1 h2 h3
    rw [r1, r2, r3]
    rw [a1] at h1
    rw [a2] at h2
    rw [a3] at h3
    exact ⟨h1, h2, h3⟩

/-- Witness for C12 with a stand-in `atan2` that is accurate within 1/100 at the three
argument pairs (values `0`, `355/226`, `355/113`). -/
theorem calculate_rotation_spec_witness :
    calculate_rotation (eyes_cv approx_atan2 0) [] = 0 ∧
    calculate_rotation (eyes_cv approx_atan2 0) [⟨0, 0⟩] = 0 ∧
    |((calculate_rotation (eyes_cv approx_atan2 0) [⟨0, 0⟩, ⟨1, 0⟩] : ℚ) : ℝ) - 0| ≤ 1/100 ∧
    |((calculate_rotation (eyes_cv approx_atan2 0) [⟨0, 0⟩, ⟨0, 1⟩] : ℚ) : ℝ) - Real.pi / 2|
      ≤ 1/100 ∧
    |((calculate_rotation (eyes_cv approx_atan2 0) [⟨1, 0⟩, ⟨0, 0⟩] : ℚ) : ℝ) - Real.pi|
      ≤ 1/100 := by
  have h := calculate_rotation_spec (eyes_cv approx_atan2 0)
  obtain ⟨_, _, _, h0, h1, _, _, _, a1, a2, a3, hacc⟩ := h
  have hpi1 := Real.pi_gt_d2
  have hpi2 := Real.pi_lt_d2
  refine ⟨h0, h1, hacc (1/100) ?_ ?_ ?_⟩
  · rw [a1]
    simp [eyes_cv, approx_atan2]
  · rw [a2]
    have : (eyes_cv approx_atan2 0).atan2 1 0 = 355/226 := by
      simp [eyes_cv, approx_atan2]
    rw [this, abs_le]
    push_cast
    constructor <;> linarith
  · rw [a3]
    have : (eyes_cv approx_atan2 0).atan2 0 (-1) = 355/113 := by
      simp [eyes_cv, approx_atan2]
    rw [this, abs_le]
    push_cast
    constructor <;> linarith

/-- C15 fails on the code: `track_face` declares `FaceData result;` without an
initialiser and assigns `rotation` only when at least 2 landmarks are found, so with
fewer landmarks (here: no eye cascade) the returned rotation is whatever the field held
(7, or -3, in the two runs below) and not 0; `detect_faces`, which starts from the
default estimate, returns rotation 0 on the same frame. -/
theorem track_face_rotation_uninitialised :
    track_candidates { sample_cv [⟨60, 10, 30, 30⟩] [⟨10, 10, 30, 30⟩] with
        indeterminate := fun _ => 7 } sample_frame sample_previous = [⟨10, 10, 30, 30⟩] ∧
    track_face { sample_cv [⟨60, 10, 30, 30⟩] [⟨10, 10, 30, 30⟩] with
        indeterminate := fun _ => 7 } sample_frame sample_previous
      = ⟨3/4, 1/4, 0, 0, 7, 17/20, []⟩ ∧
    track_face { sample_cv [⟨60, 10, 30, 30⟩] [⟨10, 10, 30, 30⟩] with
        indeterminate := fun _ => -3 } sample_frame sample_previous
      = ⟨3/4, 1/4, 0, 0, -3, 17/20, []⟩ ∧
    (detect_faces { sample_cv [⟨60, 10, 30, 30⟩] [⟨10, 10, 30, 30⟩] with
        indeterminate := fun _ => 7 } sample_frame).rotation = 0 := by
  decide!

/-- The exact `atan2(y, x)` for `x > 0` is `arctan (y / x)`. -/
lemma arg_eq_arctan_of_re_pos (x y : ℝ) (hx : 0 < x) :
    Complex.arg (Complex.mk x y) = Real.arctan (y / x) := by
  have h1 : |Complex.arg (Complex.mk x y)| < Real.pi / 2 :=
    Complex.abs_arg_lt_pi_div_two_iff.mpr (Or.inl hx)
  have h2 := Complex.tan_arg (Complex.mk x y)
  rw [abs_lt] at h1
  have h3 := Real.arctan_tan h1.1 h1.2
  rw [h2] at h3
  exact h3.symm

/-- The exact `atan2(1/10, 1/20)` exceeds the exact `atan2(10, 10)` by more than 1/4 radian. -/
lemma arg_gap :
    Complex.arg (Complex.mk 10 10) + 1/4 < Complex.arg (Complex.mk (1/20) (1/10)) := by
  have hA : Complex.arg (Complex.mk (1/20) (1/10)) = Real.arctan 2 := by
    rw [arg_eq_arctan_of_re_pos _ _ (by norm_num)]
    norm_num
  have hB : Complex.arg (Complex.mk 10 10) = Real.pi / 4 := by
    rw [arg_eq_arctan_of_re_pos _ _ (by norm_num)]
    norm_num [Real.arctan_one]
  have hpi := Real.pi_gt_three
  have hpos := Real.pi_pos
  have h3 : Real.arctan (Real.sqrt 3) = Real.pi / 3 := by
    rw [← Real.tan_pi_div_three]
    exact Real.arctan_tan (by linarith) (by linarith)
  have hsqrt : Real.sqrt 3 < 2 := by
    rw [Real.sqrt_lt' (by norm_num)]
    norm_num
  have hlt : Real.pi / 3 < Real.arctan 2 := by
    rw [← h3]
    exact Real.arctan_strictMono hsqrt
  rw [hA, hB]
  linarith

/-- On the wide sample frame the rotation `detect_faces` reports is `atan2(1/10, 1/20)`:
the eye centres differ by (10, 10) pixels, divided by the 100 rows and the 200 columns. -/
lemma eyes_cv_rotation (f : ℚ → ℚ → ℚ) (junk : ℚ) :
    (detect_faces (eyes_cv f junk) wide_frame).rotation = f (1/10) (1/20) := by
  simp [detect_faces, eyes_cv, wide_frame, largest_face, landmarks_of, detect_landmarks,
    calculate_rotation]
  norm_num

/-- C16, as stated, fails: on the 200 x 100 frame the two eye centres are (15, 15) and
(25, 25) in the coordinates of the face region, so the claim gives `atan2(10, 10)`, but
the code passes the differences of the normalised landmarks, `atan2(1/10, 1/20)`; the
exact values differ by more than 1/4 radian, so for every `atan2` accurate within 1/10
at these two argument pairs (there are such) the reported rotation is not `atan2(10, 10)`. -/
theorem detect_faces_rotation_pixel_counterexample :
    (∀ (f : ℚ → ℚ → ℚ) (junk : ℚ),
      detect_landmarks (eyes_cv f junk) ((eyes_cv f junk).roi wide_frame ⟨40, 20, 100, 60⟩)
        = [⟨15, 15⟩, ⟨25, 25⟩]) ∧
    (∀ (f : ℚ → ℚ → ℚ) (junk : ℚ),
      (detect_faces (eyes_cv f junk) wide_frame).landmarks.length = 2 ∧
      (detect_faces (eyes_cv f junk) wide_frame).rotation = f (1/10) (1/20)) ∧
    Complex.arg (Complex.mk 10 10) + 1/4 < Complex.arg (Complex.mk (1/20) (1/10)) ∧
    (∃ f : ℚ → ℚ → ℚ,
      |((f (1/10) (1/20) : ℚ) : ℝ) - Complex.arg (Complex.mk (1/20) (1/10))| ≤ 1/10 ∧
      |((f 10 10 : ℚ) : ℝ) - Complex.arg (Complex.mk 10 10)| ≤ 1/10) ∧
    (∀ (f : ℚ → ℚ → ℚ) (junk : ℚ),
      |((f (1/10) (1/20) : ℚ) : ℝ) - Complex.arg (Complex.mk (1/20) (1/10))| ≤ 1/10 →
      |((f 10 10 : ℚ) : ℝ) - Complex.arg (Complex.mk 10 10)| ≤ 1/10 →
      (detect_faces (eyes_cv f junk) wide_frame).rotation ≠ f (25 - 15) (25 - 15)) := by
  refine ⟨?_, ?_, arg_gap, ?_, ?_⟩
  · intro f junk
    simp [detect_landmarks, eyes_cv]
    norm_num
  · intro f junk
    refine ⟨?_, eyes_cv_rotation f junk⟩
    simp [detect_faces, eyes_cv, wide_frame, largest_face, landmarks_of, detect_landmarks]
  · obtain ⟨a, ha1, ha2⟩ := exists_rat_btwn
      (show Complex.arg (Complex.mk (1/20) (1/10)) - 1/10
          < Complex.arg (Complex.mk (1/20) (1/10)) + 1/10 by linarith)
    obtain ⟨b, hb1, hb2⟩ := exists_rat_btwn
      (show Complex.arg (Complex.mk 10 10) - 1/10
          < Complex.arg (Complex.mk 10 10) + 1/10 by linarith)
    refine ⟨fun y _ => if y = 1/10 then a else b, ?_, ?_⟩
    · simp only [if_true]
      rw [abs_le]
      constructor <;> linarith
    · have hne : ¬ ((10 : ℚ) = 1/10) := by norm_num
      simp only [hne, if_false]
      rw [abs_le]
      constructor <;> linarith
  · intro f junk h1 h2 heq
    rw [eyes_cv_rotation f junk] at heq
    have h10 : (25 : ℚ) - 15 = 10 := by norm_num
    rw [h10] at heq
    rw [heq] at h1
    have hgap := arg_gap
    rw [abs_le] at h1 h2
    linarith [h1.1, h1.2, h2.1, h2.2]

/-- C16, amended. Rotation of a Full Detection result with at least 2 landmarks: with
`p0`, `p1` the first two landmark centres in the region-local pixel coordinates that
`detect_landmarks` returns, the rotation is `atan2((p1.y - p0.y) / H, (p1.x - p0.x) / W)`
for the image size `W x H`: the differences are taken after normalisation by the image
dimensions, the offset of the face rectangle cancels, and the stored landmarks are the
normalised, offset points. -/
theorem detect_faces_rotation (cv : OpenCV) (gray : Mat) (first : Rect) (rest : List Rect)
    (p0 p1 : Point2f) (later : List Point2f)
    (hfaces : cv.face_cascade gray ⟨80, 80⟩ ⟨0, 0⟩ = first :: rest)
    (hlm : detect_landmarks cv (cv.roi gray (largest_face (first :: rest) first))
      = p0 :: p1 :: later) :
    (detect_faces cv gray).rotation
      = cv.atan2 ((p1.y - p0.y) / (gray.rows : ℚ)) ((p1.x - p0.x) / (gray.cols : ℚ)) ∧
    (detect_faces cv gray).landmarks
      = (p0 :: p1 :: later).map fun lm =>
          { x := (lm.x + ((largest_face (first :: rest) first).x : ℚ)) / (gray.cols : ℚ),
            y := (lm.y + ((largest_face (first :: rest) first).y : ℚ)) / (gray.rows : ℚ) } := by
  have hl : landmarks_of cv gray (largest_face (first :: rest) first) (gray.cols : ℚ)
      (gray.rows : ℚ)
      = (p0 :: p1 :: later).map fun lm =>
          { x := (lm.x + ((largest_face (first :: rest) first).x : ℚ)) / (gray.cols : ℚ),
            y := (lm.y + ((largest_face (first :: rest) first).y : ℚ)) / (gray.rows : ℚ) } := by
    simp only [landmarks_of, hlm]
  constructor
  · simp only [detect_faces, hfaces, hl]
    simp only [List.map_cons, List.length_cons, calculate_rotation]
    have hlen : (List.map (fun lm : Point2f =>
        ({ x := (lm.x + ((largest_face (first :: rest) first).x : ℚ)) / (gray.cols : ℚ),
           y := (lm.y + ((largest_face (first :: rest) first).y : ℚ)) / (gray.rows : ℚ) }
          : Point2f)) later).length + 1 + 1 ≥ 2 := by omega
    simp only [hlen, if_true]
    congr 1 <;> ring
  · simp only [detect_faces, hfaces, hl]

/-- Witness for C16 amended: the wide sample frame, where the rotation is
`atan2(10 / 100, 10 / 200)`. -/
theorem detect_faces_rotation_witness :
    (detect_faces (eyes_cv approx_atan2 0) wide_frame).rotation
      = approx_atan2 (((25 : ℚ) - 15) / ((wide_frame.rows : ℕ) : ℚ))
          (((25 : ℚ) - 15) / ((wide_frame.cols : ℕ) : ℚ)) :=
  (detect_faces_rotation (eyes_cv approx_atan2 0) wide_frame ⟨40, 20, 100, 60⟩ [] ⟨15, 15⟩
    ⟨25, 25⟩ [] rfl (by simp [detect_landmarks, eyes_cv]; norm_num)).1

/-! ## Shader validation -/

/-- The search `s.find(pat)` fails exactly when `pat` is not a substring of `s`. -/
lemma string_find_eq_none_iff (pat s : List Char) (pos : Nat) :
    string_find pat s pos = Option.none ↔ ¬ pat <:+: s := by
  induction s generalizing pos with
  | nil =>
    simp only [string_find]
    by_cases h : pat.isPrefixOf [] = true
    · have hp : pat <+: [] := List.isPrefixOf_iff_prefix.mp h
      simp [h, hp.isInfix]
    · have hp : ¬ pat <+: [] := fun hp => h (List.isPrefixOf_iff_prefix.mpr hp)
      simp only [h]
      simp only [List.prefix_nil] at hp
      simp [List.infix_nil, hp]
  | cons c rest ih =>
    simp only [string_find]
    rw [List.infix_cons_iff]
    by_cases h : pat.isPrefixOf (c :: rest) = true
    · have hp : pat <+: c :: rest := List.isPrefixOf_iff_prefix.mp h
      simp [h, hp]
    · have hp : ¬ pat <+: c :: rest := fun hp => h (List.isPrefixOf_iff_prefix.mpr hp)
      simp only [h, if_false, Bool.false_eq_true]
      rw [ih (pos + 1)]
      simp [hp]

/-- The brace loop, started on a non-negative count `n`, runs to the end exactly when no
prefix brings the count below zero, and then ends on `n` plus the opening minus the
closing braces. -/
lemma brace_scan_eq_some_iff (s : List Char) (n m : Int) (hn : 0 ≤ n) :
    brace_scan s n = some m ↔
      (∀ p : List Char, p <+: s →
        0 ≤ n + (p.count (Char.ofNat 123) : Int) - (p.count (Char.ofNat 125) : Int)) ∧
      m = n + (s.count (Char.ofNat 123) : Int) - (s.count (Char.ofNat 125) : Int) := by
  induction s generalizing n with
  | nil =>
    simp only [brace_scan, List.prefix_nil, forall_eq, List.count_nil, Nat.cast_zero,
      add_zero, sub_zero, Option.some.injEq]
    constructor
    · intro h
      exact ⟨hn, h.symm⟩
    · intro h
      exact h.2.symm
  | cons c rest ih =>
    have hne : Char.ofNat 123 ≠ Char.ofNat 125 := by decide
    simp only [brace_scan]
    by_cases ho : c = Char.ofNat 123
    · subst ho
      have hc : ¬ (Char.ofNat 123 = Char.ofNat 125) := hne
      simp only [if_true, hc, if_false]
      have hn1 : ¬ (n + 1 < 0) := by omega
      simp only [hn1, if_false]
      rw [ih (n + 1) (by omega)]
      constructor
      · rintro ⟨hp, hm⟩
        refine ⟨?_, ?_⟩
        · intro p hpre
          rcases List.prefix_cons_iff.mp hpre with rfl | ⟨t, rfl, ht⟩
          · simpa using hn
          · have := hp t ht
            simp only [List.count_cons, beq_self_eq_true, if_true]
            have hc2 : ¬ ((Char.ofNat 123 == Char.ofNat 125) = true) := by decide
            simp only [hc2, if_false]
            push_cast
            omega
        · simp only [List.count_cons, beq_self_eq_true, if_true]
          have hc2 : ¬ ((Char.ofNat 123 == Char.ofNat 125) = true) := by decide
          simp only [hc2, if_false]
          push_cast
          omega
      · rintro ⟨hp, hm⟩
        refine ⟨?_, ?_⟩
        · intro p hpre
          have := hp (Char.ofNat 123 :: p) (List.prefix_cons_iff.mpr (Or.inr ⟨p, rfl, hpre⟩))
          simp only [List.count_cons, beq_self_eq_true, if_true] at this
          have hc2 : ¬ ((Char.ofNat 123 == Char.ofNat 125) = true) := by decide
          simp only [hc2, if_false] at this
          push_cast at this
          omega
        · simp only [List.count_cons, beq_self_eq_true, if_true] at hm
          have hc2 : ¬ ((Char.ofNat 123 == Char.ofNat 125) = true) := by decide
          simp only [hc2, if_false] at hm
          push_cast at hm
          omega
    · by_cases hcl : c = Char.ofNat 125
      · subst hcl
        simp only [ho, if_false, if_true]
        have hc2 : ¬ ((Char.ofNat 125 == Char.ofNat 123) = true) := by decide
        by_cases hneg : n - 1 < 0
        · simp only [hneg, if_true]
          constructor
          · intro h
            exact absurd h (by simp)
          · rintro ⟨hp, _⟩
            have := hp [Char.ofNat 125] (List.prefix_cons_iff.mpr (Or.inr ⟨[], rfl, List.nil_prefix⟩))
            simp only [List.count_cons, beq_self_eq_true, if_true, hc2, if_false,
              List.count_nil] at this
            push_cast at this
            omega
        · simp only [hneg, if_false]
          rw [ih (n - 1) (by omega)]
          constructor
          · rintro ⟨hp, hm⟩
            refine ⟨?_, ?_⟩
            · intro p hpre
              rcases List.prefix_cons_iff.mp hpre with rfl | ⟨t, rfl, ht⟩
              · simpa using hn
              · have := hp t ht
                simp only [List.count_cons, beq_self_eq_true, if_true, hc2, if_false]
                push_cast
                omega
            · simp only [List.count_cons, beq_self_eq_true, if_true, hc2, if_false]
              push_cast
              omega
          · rintro ⟨hp, hm⟩
            refine ⟨?_, ?_⟩
            · intro p hpre
              have := hp (Char.ofNat 125 :: p)
                (List.prefix_cons_iff.mpr (Or.inr ⟨p, rfl, hpre⟩))
              simp only [List.count_cons, beq_self_eq_true, if_true, hc2, if_false] at this
              push_cast at this
              omega
            · simp only [List.count_cons, beq_self_eq_true, if_true, hc2, if_false] at hm
              push_cast at hm
              omega
      · simp only [ho, hcl, if_false]
        have hneg : ¬ (n < 0) := by omega
        simp only [hneg, if_false]
        rw [ih n hn]
        have h1 : ¬ ((c == Char.ofNat 123) = true) := by simpa using ho
        have h2 : ¬ ((c == Char.ofNat 125) = true) := by simpa using hcl
        constructor
        · rintro ⟨hp, hm⟩
          refine ⟨?_, ?_⟩
          · intro p hpre
            rcases List.prefix_cons_iff.mp hpre with rfl | ⟨t, rfl, ht⟩
            · simpa using hn
            · have := hp t ht
              simp only [List.count_cons, h1, h2, if_false, add_zero]
              exact this
          · simp only [List.count_cons, h1, h2, if_false, add_zero]
            exact hm
        · rintro ⟨hp, hm⟩
          refine ⟨?_, ?_⟩
          · intro p hpre
            have := hp (c :: p) (List.prefix_cons_iff.mpr (Or.inr ⟨p, rfl, hpre⟩))
            simp only [List.count_cons, h1, h2, if_false, add_zero] at this
            exact this
          · simp only [List.count_cons, h1, h2, if_false, add_zero] at hm
            exact hm

/-- The brace loop accepts the text exactly when its braces are balanced. -/
lemma brace_scan_zero_iff (text : List Char) :
    brace_scan text 0 = some 0 ↔ braces_balanced text := by
  rw [brace_scan_eq_some_iff text 0 0 (le_refl 0)]
  unfold braces_balanced
  constructor
  · rintro ⟨hp, hm⟩
    refine ⟨fun p hpre => ?_, ?_⟩
    · have := hp p hpre
      omega
    · omega
  · rintro ⟨hp, hm⟩
    refine ⟨fun p hpre => ?_, ?_⟩
    · have := hp p hpre
      omega
    · omega

/-- C20. The function `validate_shader` returns true exactly when the text contains
"main", contains "return" and has balanced braces (no prefix with more closing than
opening braces, equally many of each in the whole text); the "mainImage" test never
changes the outcome, because a text containing "mainImage" contains "main"; when it
returns false, `error_msg` is the message of the first failed check in the order main,
return, braces; when it returns true, `error_msg` is unchanged. -/
theorem validate_shader_spec (shader_code : List Char) (error_msg : String) :
    ((validate_shader shader_code error_msg).1 = true ↔
      ("main".toList <:+: shader_code ∧ "return".toList <:+: shader_code ∧
        braces_balanced shader_code)) ∧
    ("mainImage".toList <:+: shader_code → "main".toList <:+: shader_code) ∧
    ((string_find "mainImage".toList shader_code 0 = Option.none ∧
        string_find "main".toList shader_code 0 = Option.none) ↔
      string_find "main".toList shader_code 0 = Option.none) ∧
    (¬ "main".toList <:+: shader_code →
      validate_shader shader_code error_msg
        = (false, "Shader must contain mainImage() or main() function")) ∧
    ("main".toList <:+: shader_code → ¬ "return".toList <:+: shader_code →
      validate_shader shader_code error_msg
        = (false, "Shader must have a return statement")) ∧
    ("main".toList <:+: shader_code → "return".toList <:+: shader_code →
      ¬ braces_balanced shader_code →
      validate_shader shader_code error_msg = (false, "Unbalanced braces in shader")) ∧
    ((validate_shader shader_code error_msg).1 = true →
      (validate_shader shader_code error_msg).2 = error_msg) := by
  have hsub : "mainImage".toList <:+: shader_code → "main".toList <:+: shader_code := by
    intro h
    have hp : "main".toList <+: "mainImage".toList := by decide
    exact hp.isInfix.trans h
  have hmain : (string_find "mainImage".toList shader_code 0 = Option.none ∧
      string_find "main".toList shader_code 0 = Option.none) ↔ ¬ "main".toList <:+: shader_code := by
    rw [string_find_eq_none_iff, string_find_eq_none_iff]
    constructor
    · exact fun h => h.2
    · exact fun h => ⟨fun hi => h (hsub hi), h⟩
  have hret := string_find_eq_none_iff "return".toList shader_code 0
  have hbal := brace_scan_zero_iff shader_code
  -- the three outcomes
  have out1 : ¬ "main".toList <:+: shader_code →
      validate_shader shader_code error_msg
        = (false, "Shader must contain mainImage() or main() function") := by
    intro h
    unfold validate_shader
    rw [if_pos (hmain.mpr h)]
  have out2 : "main".toList <:+: shader_code → ¬ "return".toList <:+: shader_code →
      validate_shader shader_code error_msg
        = (false, "Shader must have a return statement") := by
    intro h1 h2
    unfold validate_shader
    rw [if_neg (fun h => hmain.mp h h1), if_pos (hret.mpr h2)]
  have out3 : "main".toList <:+: shader_code → "return".toList <:+: shader_code →
      ¬ braces_balanced shader_code →
      validate_shader shader_code error_msg = (false, "Unbalanced braces in shader") := by
    intro h1 h2 h3
    unfold validate_shader
    rw [if_neg (fun h => hmain.mp h h1), if_neg (fun h => hret.mp h h2)]
    cases hb : brace_scan shader_code 0 with
    | none => rfl
    | some m =>
      have hm : m ≠ 0 := by
        intro h0
        rw [h0] at hb
        exact h3 (hbal.mp hb)
      simp only [hm, ne_eq, not_false_eq_true, if_true]
  have out4 : "main".toList <:+: shader_code → "return".toList <:+: shader_code →
      braces_balanced shader_code →
      validate_shader shader_code error_msg = (true, error_msg) := by
    intro h1 h2 h3
    unfold validate_shader
    rw [if_neg (fun h => hmain.mp h h1), if_neg (fun h => hret.mp h h2), hbal.mpr h3]
    simp
  have hiff : (validate_shader shader_code error_msg).1 = true ↔
      ("main".toList <:+: shader_code ∧ "return".toList <:+: shader_code ∧
        braces_balanced shader_code) := by
    constructor
    · intro h
      by_contra hcon
      by_cases h1 : "main".toList <:+: shader_code
      · by_cases h2 : "return".toList <:+: shader_code
        · by_cases h3 : braces_balanced shader_code
          · exact hcon ⟨h1, h2, h3⟩
          · rw [out3 h1 h2 h3] at h
            exact absurd h (by simp)
        · rw [out2 h1 h2] at h
          exact absurd h (by simp)
      · rw [out1 h1] at h
        exact absurd h (by simp)
    · rintro ⟨h1, h2, h3⟩
      rw [out4 h1 h2 h3]
  refine ⟨hiff, hsub, ?_, out1, out2, out3, ?_⟩
  · rw [hmain, string_find_eq_none_iff]
  · intro h
    obtain ⟨h1, h2, h3⟩ := hiff.mp h
    rw [out4 h1 h2 h3]

/-- Witness for C20 on four texts: an accepted shader, one without "main", one without
"return", and one whose braces close before they open. -/
theorem validate_shader_spec_witness :
    validate_shader "void mainImage() \x7b return c; \x7d".toList "old" = (true, "old") ∧
    validate_shader "void f() \x7b return c; \x7d".toList "old"
      = (false, "Shader must contain mainImage() or main() function") ∧
    validate_shader "void main() \x7b \x7d".toList "old"
      = (false, "Shader must have a return statement") ∧
    validate_shader "void main() \x7d return c; \x7b".toList "old"
      = (false, "Unbalanced braces in shader") ∧
    ((validate_shader "void mainImage() \x7b return c; \x7d".toList "old").1 = true ↔
      ("main".toList <:+: "void mainImage() \x7b return c; \x7d".toList ∧
        "return".toList <:+: "void mainImage() \x7b return c; \x7d".toList ∧
        braces_balanced "void mainImage() \x7b return c; \x7d".toList)) :=
  ⟨by decide, by decide, by decide, by decide,
    (validate_shader_spec "void mainImage() \x7b return c; \x7d".toList "old").1⟩

/-! ## Sequences of calls -/

/-- Only `process_mat` changes `has_previous`. -/
lemma call_has_previous (cv : OpenCV) (t : FaceTracker) (c : Call)
    (hc : c.is_process_mat = false) :
    (FaceTracker.call cv t c).has_previous = t.has_previous := by
  cases c with
  | initialize_ cascades_loaded =>
    simp only [FaceTracker.call, FaceTracker.initialize]
    split_ifs <;> rfl
  | shutdown => rfl
  | set_detection_confidence confidence => rfl
  | set_tracking_mode enabled => rfl
  | process_frame source =>
    simp only [FaceTracker.call, FaceTracker.process_frame]
    split_ifs <;> rfl
  | process_mat frame => simp [Call.is_process_mat] at hc

/-- A sequence of calls without `process_mat` leaves `has_previous` as it was. -/
lemma calls_has_previous (cv : OpenCV) (cs : List Call) :
    ∀ t : FaceTracker, (∀ c ∈ cs, c.is_process_mat = false) →
      (FaceTracker.calls cv t cs).has_previous = t.has_previous := by
  induction cs with
  | nil => intro t _; rfl
  | cons c rest ih =>
    intro t h
    simp only [FaceTracker.calls, List.foldl_cons]
    have := ih (FaceTracker.call cv t c) (fun d hd => h d (List.mem_cons_of_mem _ hd))
    simp only [FaceTracker.calls] at this
    rw [this]
    exact call_has_previous cv t c (h c (List.mem_cons_self _ _))

/-- Without `has_previous` the method `process_frame` returns the default estimate. -/
lemma process_frame_of_no_previous (t : FaceTracker) (source : Bool)
    (h : t.has_previous = false) :
    FaceTracker.process_frame t source = (FaceData.no_face, t) := by
  simp only [FaceTracker.process_frame, h]
  split_ifs <;> first | rfl | simp_all

/-- An update of a filter whose tracker has no previous face publishes "not detected". -/
lemma update_face_tracking_of_no_previous (filter : snapfilter_data) (tracker : FaceTracker)
    (target : Bool) (ht : filter.face_tracker = some tracker)
    (hp : tracker.has_previous = false) :
    (update_face_tracking filter target).face_tracker = some tracker ∧
    (target = true → (update_face_tracking filter target).face_detected = false ∧
      (update_face_tracking filter target).face_confidence = 0) ∧
    (target = false → update_face_tracking filter target = filter) := by
  cases target with
  | false =>
    refine ⟨?_, fun h => absurd h (by simp), fun _ => ?_⟩
    · simp [update_face_tracking, ht]
    · simp [update_face_tracking, ht]
  | true =>
    refine ⟨?_, fun _ => ⟨?_, ?_⟩, fun h => absurd h (by simp)⟩
    · simp [update_face_tracking, ht, process_frame_of_no_previous tracker true hp]
    · simp only [update_face_tracking, ht, process_frame_of_no_previous tracker true hp]
      simp only [Bool.not_true, Bool.false_eq_true, if_false, FaceData.no_face]
      simp
    · simp only [update_face_tracking, ht, process_frame_of_no_previous tracker true hp]
      simp [FaceData.no_face]

/-- Every event keeps a filter in the condition "tracker without previous face,
nothing detected". -/
lemma events_not_detected (es : List FilterEvent) :
    ∀ filter : snapfilter_data,
      (∃ tracker, filter.face_tracker = some tracker ∧ tracker.has_previous = false) →
      filter.face_detected = false →
      (∃ tracker, (filter.events es).face_tracker = some tracker ∧
        tracker.has_previous = false) ∧
      (filter.events es).face_detected = false := by
  induction es with
  | nil =>
    intro filter h1 h2
    exact ⟨h1, h2⟩
  | cons e rest ih =>
    intro filter h1 h2
    simp only [snapfilter_data.events, List.foldl_cons]
    obtain ⟨tracker, ht, hp⟩ := h1
    have step : (∃ tr, (filter.event e).face_tracker = some tr ∧ tr.has_previous = false) ∧
        (filter.event e).face_detected = false := by
      cases e with
      | tick target =>
        simp only [snapfilter_data.event]
        split_ifs
        · obtain ⟨u1, u2, u3⟩ := update_face_tracking_of_no_previous filter tracker target ht hp
          refine ⟨⟨tracker, u1, hp⟩, ?_⟩
          cases target with
          | true => exact (u2 rfl).1
          | false => rw [u3 rfl]; exact h2
        · exact ⟨⟨tracker, ht, hp⟩, h2⟩
      | update tracking_enabled smooth_factor =>
        exact ⟨⟨tracker, ht, hp⟩, h2⟩
    have := ih (filter.event e) step.1 step.2
    simpa only [snapfilter_data.events] using this

/-- C18. The method `process_frame` never modifies the tracker; it returns
`previous_face` only when `has_previous && tracking_mode` (and the tracker is
initialised and the source is non-null), otherwise the default estimate.  As only
`process_mat` sets `has_previous`, after any sequence of `initialize`, `shutdown`,
`set_detection_confidence`, `set_tracking_mode` and `process_frame` calls on a freshly
constructed tracker every `process_frame` result is the default estimate, of confidence
0; so `update_face_tracking`, which only calls `process_frame`, publishes
`face_detected = false` at every tick of a created filter. -/
theorem process_frame_default (cv : OpenCV) :
    (∀ (t : FaceTracker) (source : Bool), (FaceTracker.process_frame t source).2 = t) ∧
    (∀ (t : FaceTracker) (source : Bool),
      ¬ (t.has_previous = true ∧ t.tracking_mode = true) →
      (FaceTracker.process_frame t source).1 = FaceData.no_face) ∧
    (∀ (t : FaceTracker) (source : Bool),
      (t.initialized = false ∨ source = false) →
      (FaceTracker.process_frame t source).1 = FaceData.no_face) ∧
    (∀ t : FaceTracker, t.initialized = true → t.has_previous = true →
      t.tracking_mode = true → (FaceTracker.process_frame t true).1 = t.previous_face) ∧
    (∀ cs : List Call, (∀ c ∈ cs, c.is_process_mat = false) →
      (FaceTracker.calls cv FaceTracker.new cs).has_previous = false ∧
      ∀ source : Bool,
        (FaceTracker.process_frame (FaceTracker.calls cv FaceTracker.new cs) source).1
          = FaceData.no_face ∧
        (FaceTracker.process_frame (FaceTracker.calls cv FaceTracker.new cs) source).1.confidence
          = 0) ∧
    (∀ (cs : List Call) (filter : snapfilter_data), (∀ c ∈ cs, c.is_process_mat = false) →
      filter.face_tracker = some (FaceTracker.calls cv FaceTracker.new cs) →
      (update_face_tracking filter true).face_detected = false) ∧
    (∀ (cascades_loaded tracking_enabled : Bool) (smooth_factor : ℚ) (es : List FilterEvent),
      ((snapfilter_create cascades_loaded tracking_enabled smooth_factor).events es).face_detected
        = false) := by
  refine ⟨?_, ?_, ?_, ?_, ?_, ?_, ?_⟩
  · intro t source
    simp only [FaceTracker.process_frame]
    split_ifs <;> rfl
  · intro t source h
    simp only [FaceTracker.process_frame]
    split_ifs with h1 h2
    · rfl
    · exact absurd (by simpa using h2) h
    · rfl
  · intro t source h
    rcases h with h | h <;> simp [FaceTracker.process_frame, h]
  · intro t h1 h2 h3
    simp [FaceTracker.process_frame, h1, h2, h3]
  · intro cs hcs
    have hp : (FaceTracker.calls cv FaceTracker.new cs).has_previous = false := by
      rw [calls_has_previous cv cs FaceTracker.new hcs]
      rfl
    refine ⟨hp, fun source => ?_⟩
    rw [process_frame_of_no_previous _ source hp]
    exact ⟨rfl, rfl⟩
  · intro cs filter hcs hf
    have hp : (FaceTracker.calls cv FaceTracker.new cs).has_previous = false := by
      rw [calls_has_previous cv cs FaceTracker.new hcs]
      rfl
    exact ((update_face_tracking_of_no_previous filter _ true hf hp).2.1 rfl).1
  · intro cascades_loaded tracking_enabled smooth_factor es
    refine (events_not_detected es _ ⟨_, rfl, ?_⟩ rfl).2
    simp only [FaceTracker.new, FaceTracker.initialize]
    split_ifs <;> rfl

/-- The raw estimate has confidence 0, 0.8 or 0.85. -/
lemma raw_estimate_confidence (cv : OpenCV) (t : FaceTracker) (frame : Mat) :
    (raw_estimate cv t frame).confidence = 0 ∨ (raw_estimate cv t frame).confidence = 4/5 ∨
    (raw_estimate cv t frame).confidence = 17/20 := by
  have hdet := detect_faces_confidence cv (preprocess cv frame)
  have hfull : (detect_faces cv (preprocess cv frame)).confidence = 0 ∨
      (detect_faces cv (preprocess cv frame)).confidence = 4/5 := by
    by_cases hc : cv.face_cascade (preprocess cv frame) ⟨80, 80⟩ ⟨0, 0⟩ = []
    · exact Or.inl (hdet.1 hc)
    · exact Or.inr (hdet.2 hc)
  cases heng : t.engine with
  | FullDetection =>
    simp only [raw_estimate, heng, Engine.run]
    rcases hfull with h | h
    · exact Or.inl h
    · exact Or.inr (Or.inl h)
  | RegionTracking =>
    simp only [raw_estimate, heng, Engine.run]
    by_cases hfb : (search_region (preprocess cv frame) t.previous_face).1.width ≤ 0 ∨
        (search_region (preprocess cv frame) t.previous_face).1.height ≤ 0 ∨
        track_candidates cv (preprocess cv frame) t.previous_face = []
    · rw [track_face_eq_detect_faces cv _ _ hfb]
      rcases hfull with h | h
      · exact Or.inl h
      · exact Or.inr (Or.inl h)
    · push_neg at hfb
      exact Or.inr (Or.inr (track_face_confidence cv _ _ hfb.1 hfb.2.1 hfb.2.2))

/-- Either `process_mat` short-circuits, or it stores the smoothed raw estimate. -/
lemma process_mat_cases (cv : OpenCV) (t : FaceTracker) (frame : Mat) :
    (process_mat cv t frame).2 = t ∨
    ((t.initialized = true ∧ frame.empty = false) ∧
     (process_mat cv t frame).2 =
      { t with previous_face := smooth t (raw_estimate cv t frame)
               has_previous := decide ((raw_estimate cv t frame).confidence
                                        > t.detection_confidence) }) := by
  by_cases hshort : (!t.initialized || frame.empty) = true
  · left
    simp only [process_mat, hshort, if_true]
  · right
    have hi : t.initialized = true := by
      cases h : t.initialized <;> simp [h] at hshort ⊢
    have hf : frame.empty = false := by
      cases h : frame.empty <;> simp [h] at hshort ⊢
    refine ⟨⟨hi, hf⟩, ?_⟩
    rw [process_mat_eq cv t frame hi hf]
    simp only [smooth_confidence]

/-- Every call keeps the tracker consistent. -/
lemma call_consistent (cv : OpenCV) (t : FaceTracker) (c : Call) (h : t.consistent) :
    (FaceTracker.call cv t c).consistent := by
  cases c with
  | initialize_ cascades_loaded =>
    simp only [FaceTracker.call, FaceTracker.initialize]
    split_ifs <;> exact h
  | shutdown => exact h
  | set_detection_confidence confidence =>
    exact ⟨⟨le_max_left _ _, max_le (by norm_num) (min_le_left _ _)⟩, h.2⟩
  | set_tracking_mode enabled => exact h
  | process_frame source =>
    simp only [FaceTracker.call, FaceTracker.process_frame]
    split_ifs <;> exact h
  | process_mat frame =>
    simp only [FaceTracker.call]
    rcases process_mat_cases cv t frame with hs | ⟨_, hs⟩
    · rw [hs]
      exact h
    · rw [hs]
      refine ⟨h.1, ?_⟩
      intro hp
      simp only [decide_eq_true_eq] at hp
      simp only [smooth_confidence]
      rcases raw_estimate_confidence cv t frame with h0 | h1 | h2
      · rw [h0] at hp
        exact absurd hp (not_lt.mpr h.1.1)
      · exact Or.inl h1
      · exact Or.inr h2

/-- Every sequence of calls keeps the tracker consistent. -/
lemma calls_consistent (cv : OpenCV) (cs : List Call) :
    ∀ t : FaceTracker, t.consistent → (FaceTracker.calls cv t cs).consistent := by
  induction cs with
  | nil => intro t h; exact h
  | cons c rest ih =>
    intro t h
    simp only [FaceTracker.calls, List.foldl_cons]
    have := ih (FaceTracker.call cv t c) (call_consistent cv t c h)
    simpa only [FaceTracker.calls] using this

/-- With the threshold at 0.85 or more and no previous face, a call that keeps the
threshold leaves both so. -/
lemma call_high_threshold (cv : OpenCV) (t : FaceTracker) (c : Call)
    (hd : 17/20 ≤ t.detection_confidence) (hp : t.has_previous = false)
    (hc : c.keeps_threshold) :
    17/20 ≤ (FaceTracker.call cv t c).detection_confidence ∧
    (FaceTracker.call cv t c).has_previous = false := by
  cases c with
  | initialize_ cascades_loaded =>
    simp only [FaceTracker.call, FaceTracker.initialize]
    split_ifs <;> exact ⟨hd, hp⟩
  | shutdown => exact ⟨hd, hp⟩
  | set_detection_confidence confidence =>
    refine ⟨?_, hp⟩
    simp only [FaceTracker.call, FaceTracker.set_detection_confidence]
    simp only [Call.keeps_threshold] at hc
    exact le_max_of_le_right (le_min (by norm_num) hc)
  | set_tracking_mode enabled => exact ⟨hd, hp⟩
  | process_frame source =>
    simp only [FaceTracker.call, FaceTracker.process_frame]
    split_ifs <;> exact ⟨hd, hp⟩
  | process_mat frame =>
    simp only [FaceTracker.call]
    rcases process_mat_cases cv t frame with hs | ⟨_, hs⟩
    · rw [hs]
      exact ⟨hd, hp⟩
    · rw [hs]
      refine ⟨hd, ?_⟩
      simp only [decide_eq_false_iff_not, not_lt, gt_iff_lt]
      rcases raw_estimate_confidence cv t frame with h0 | h1 | h2
      · rw [h0]; linarith
      · rw [h1]; linarith
      · rw [h2]; exact hd

/-- With the threshold at 0.85 or more and no previous face, a sequence of calls that
keep the threshold leaves both so. -/
lemma calls_high_threshold (cv : OpenCV) (cs : List Call) :
    ∀ t : FaceTracker, 17/20 ≤ t.detection_confidence → t.has_previous = false →
      (∀ c ∈ cs, c.keeps_threshold) →
      17/20 ≤ (FaceTracker.calls cv t cs).detection_confidence ∧
      (FaceTracker.calls cv t cs).has_previous = false := by
  induction cs with
  | nil => intro t hd hp _; exact ⟨hd, hp⟩
  | cons c rest ih =>
    intro t hd hp hcs
    simp only [FaceTracker.calls, List.foldl_cons]
    obtain ⟨h1, h2⟩ := call_high_threshold cv t c hd hp (hcs c (List.mem_cons_self _ _))
    have := ih (FaceTracker.call cv t c) h1 h2 (fun d hd => hcs d (List.mem_cons_of_mem _ hd))
    simpa only [FaceTracker.calls] using this

/-- C19, as stated, fails in its consequence: a tracker that accepted a face with the
default threshold 0.5 and then has the threshold set to 0.9 still has `has_previous`
true, so the next `process_mat` call on a non-empty frame runs Region Tracking (and
returns confidence 0.85), and a `process_mat` call on an empty frame leaves
`has_previous` true. -/
theorem high_threshold_counterexample :
    (FaceTracker.calls (sample_cv [⟨65, 10, 30, 30⟩] [⟨10, 10, 30, 30⟩]) FaceTracker.new
      [Call.initialize_ true, Call.process_mat sample_frame,
        Call.set_detection_confidence (9/10)]).detection_confidence = 9/10 ∧
    (17 : ℚ)/20 ≤ 9/10 ∧
    (FaceTracker.calls (sample_cv [⟨65, 10, 30, 30⟩] [⟨10, 10, 30, 30⟩]) FaceTracker.new
      [Call.initialize_ true, Call.process_mat sample_frame,
        Call.set_detection_confidence (9/10)]).has_previous = true ∧
    (FaceTracker.calls (sample_cv [⟨65, 10, 30, 30⟩] [⟨10, 10, 30, 30⟩]) FaceTracker.new
      [Call.initialize_ true, Call.process_mat sample_frame,
        Call.set_detection_confidence (9/10)]).engine = Engine.RegionTracking ∧
    (process_mat (sample_cv [⟨65, 10, 30, 30⟩] [⟨10, 10, 30, 30⟩])
      (FaceTracker.calls (sample_cv [⟨65, 10, 30, 30⟩] [⟨10, 10, 30, 30⟩]) FaceTracker.new
        [Call.initialize_ true, Call.process_mat sample_frame,
          Call.set_detection_confidence (9/10)])
      sample_frame).1.confidence = 17/20 ∧
    (process_mat (sample_cv [⟨65, 10, 30, 30⟩] [⟨10, 10, 30, 30⟩])
      (FaceTracker.calls (sample_cv [⟨65, 10, 30, 30⟩] [⟨10, 10, 30, 30⟩]) FaceTracker.new
        [Call.initialize_ true, Call.process_mat sample_frame,
          Call.set_detection_confidence (9/10)])
      { rows := 0, cols := 0, channels := 1, data := [] }).2.has_previous = true := by
  decide!

/-- C19, amended. In every state reachable from the constructor by any sequence of
`initialize`, `shutdown`, `set_detection_confidence`, `set_tracking_mode`,
`process_frame` and `process_mat` calls, `detection_confidence` is in `[0, 1]` and
`has_previous` implies that `previous_face.confidence` is 0.8 or 0.85.  With
`detection_confidence ≥ 0.85`, `has_previous` is false after every `process_mat` call
that is not short-circuited; and from a state with `has_previous` false, as long as no
call sets the threshold below 0.85, `has_previous` stays false and the engine stays
Full Detection. -/
theorem reachable_state_invariant (cv : OpenCV) :
    (∀ cs : List Call,
      (0 ≤ (FaceTracker.calls cv FaceTracker.new cs).detection_confidence ∧
        (FaceTracker.calls cv FaceTracker.new cs).detection_confidence ≤ 1) ∧
      ((FaceTracker.calls cv FaceTracker.new cs).has_previous = true →
        (FaceTracker.calls cv FaceTracker.new cs).previous_face.confidence = 4/5 ∨
        (FaceTracker.calls cv FaceTracker.new cs).previous_face.confidence = 17/20)) ∧
    (∀ (t : FaceTracker) (frame : Mat), 17/20 ≤ t.detection_confidence →
      t.initialized = true → frame.empty = false →
      (process_mat cv t frame).2.has_previous = false) ∧
    (∀ (t : FaceTracker) (cs : List Call), 17/20 ≤ t.detection_confidence →
      t.has_previous = false → (∀ c ∈ cs, c.keeps_threshold) →
      17/20 ≤ (FaceTracker.calls cv t cs).detection_confidence ∧
      (FaceTracker.calls cv t cs).has_previous = false ∧
      (FaceTracker.calls cv t cs).engine = Engine.FullDetection) := by
  refine ⟨?_, ?_, ?_⟩
  · intro cs
    have hnew : FaceTracker.new.consistent := by
      refine ⟨?_, fun h => absurd h (by simp [FaceTracker.new])⟩
      simp only [FaceTracker.new]
      norm_num
    exact calls_consistent cv cs FaceTracker.new hnew
  · intro t frame hd hi hf
    rw [process_mat_eq cv t frame hi hf]
    simp only [smooth_confidence, decide_eq_false_iff_not, not_lt, gt_iff_lt]
    rcases raw_estimate_confidence cv t frame with h0 | h1 | h2
    · rw [h0]; linarith
    · rw [h1]; linarith
    · rw [h2]; exact hd
  · intro t cs hd hp hcs
    obtain ⟨h1, h2⟩ := calls_high_threshold cv cs t hd hp hcs
    exact ⟨h1, h2, engine_of_no_previous _ h2⟩

/-- Witness for C19 amended: the tracker of the counterexample, after its first
`process_mat` call with the threshold at 0.9, has lost `has_previous`. -/
theorem reachable_state_invariant_witness :
    (process_mat (sample_cv [⟨65, 10, 30, 30⟩] [⟨10, 10, 30, 30⟩])
      (FaceTracker.calls (sample_cv [⟨65, 10, 30, 30⟩] [⟨10, 10, 30, 30⟩]) FaceTracker.new
        [Call.initialize_ true, Call.process_mat sample_frame,
          Call.set_detection_confidence (9/10)])
      sample_frame).2.has_previous = false :=
  (reachable_state_invariant (sample_cv [⟨65, 10, 30, 30⟩] [⟨10, 10, 30, 30⟩])).2.1
    _ sample_frame (by decide!) (by decide!) rfl

end SnapFilter
